import Mathlib

/-!
Shallow embedding of the debugger control core of `proc/proc.go` (the Process
orchestrator of a Go debugger): breakpoint table management, the Continue
resume loop, Next (step-over), goroutine enumeration and selection.

Only `proc/proc.go` is available as source; the collaborating files of the same
package (threads, breakpoints, variables, platform specifics) are not.
Functions from those files are modelled from the specification document and
carry a doc comment starting with `Modelled from the spec:`.  External
collaborators (ptrace, DWARF/symbol tables, tracee memory reads) are
represented as oracle fields of the `Process` state.

Machine integers (`uint64` addresses) are embedded as `Nat` with explicit
`% 2^64` where Go's wraparound arithmetic matters.  Go maps are embedded as
association lists whose iteration order is the list order (Go's map order is
implementation-defined; the spec fixes only a "first seen in one pass"
policy).  Go's distinction between a nil slice and an empty slice is kept via
`GoSlice` (a list plus a nil flag), because `GoroutinesInfo` observably
returns a nil slice.  Loops without a structural bound (the Continue resume
loop, the first-line scan of FindFunctionLocation) take a fuel parameter;
running out of fuel is reported as `none`, distinct from every returning
outcome of the Go code.
-/

namespace Delve

deriving instance DecidableEq for Except

/-- Error kinds of the core (spec section 7); `otherErr` covers ad-hoc
`fmt.Errorf` errors such as "next while nexting". -/
inductive GoErr where
  | noBreakpoint (addr : Nat)
  | breakpointExists (addr : Nat)
  | notInstalled (addr : Nat)
  | unknownThread (tid : Int)
  | unknownGoroutine (gid : Int)
  | threadBlocked
  | noReturnAddr
  | goroutineExiting (goid : Int)
  | nullAddr
  | functionNotFound (name : String)
  | otherErr (msg : String)
deriving DecidableEq

/-- Outcome of a Go call: normal value, returned error, or a runtime panic
(used where the Go code can index out of range). -/
inductive GoRes (α : Type) where
  | ok (a : α)
  | err (e : GoErr)
  | panicked
deriving DecidableEq

/-- Go slice: a list of elements plus the flag telling a nil slice apart from
a non-nil one (`s == nil` is observable in Go). -/
structure GoSlice (α : Type) where
  isNil : Bool
  elems : List α
deriving DecidableEq

/-- The nil slice (`var s []T`). -/
def GoSlice.nilS {α : Type} : GoSlice α := ⟨true, []⟩

/-- Go `append`: the result of an append is never nil. -/
def GoSlice.push {α : Type} (s : GoSlice α) (a : α) : GoSlice α := ⟨false, s.elems ++ [a]⟩

/-- Association-list lookup (Go map read); first match wins. -/
def lookupA {κ α : Type} [DecidableEq κ] : List (κ × α) → κ → Option α
  | [], _ => none
  | p :: rest, k => if p.1 = k then some p.2 else lookupA rest k

/-- Association-list erase (Go map `delete`). -/
def eraseA {κ α : Type} [DecidableEq κ] : List (κ × α) → κ → List (κ × α)
  | [], _ => []
  | p :: rest, k => if p.1 = k then eraseA rest k else p :: eraseA rest k

/-- Association-list overwrite insert (Go map write). -/
def insertA {κ α : Type} [DecidableEq κ] (l : List (κ × α)) (k : κ) (v : α) : List (κ × α) :=
  eraseA l k ++ [(k, v)]

/-- Association-list value update at a key, leaving other entries alone. -/
def updateA {κ α : Type} [DecidableEq κ] (l : List (κ × α)) (k : κ) (v : α) : List (κ × α) :=
  l.map (fun p => if p.1 = k then (p.1, v) else p)

/-- Wraparound subtraction on uint64 values embedded as Nat. -/
def u64sub (a b : Nat) : Nat := (a + (2 ^ 64 - b % 2 ^ 64)) % 2 ^ 64

/-- One byte of tracee memory, default 0 for unwritten addresses. -/
def readByte (mem : List (Nat × Nat)) (a : Nat) : Nat := (lookupA mem a).getD 0

/-- Read `len` consecutive bytes of tracee memory. -/
def readBytes (mem : List (Nat × Nat)) (a len : Nat) : List Nat :=
  (List.range len).map (fun i => readByte mem ((a + i) % 2 ^ 64))

/-- Write a byte string into tracee memory starting at `a`. -/
def writeBytes (mem : List (Nat × Nat)) (a : Nat) : List Nat → List (Nat × Nat)
  | [] => mem
  | b :: rest => writeBytes (insertA mem (a % 2 ^ 64) b) (a + 1) rest

/-- Does `sub` start the character list `l`? -/
def startsWithL : List Char → List Char → Bool
  | [], _ => true
  | _ :: _, [] => false
  | a :: as, b :: bs => a == b && startsWithL as bs

/-- Substring occurrence on character lists. -/
def containsSub (l sub : List Char) : Bool :=
  match l with
  | [] => sub.isEmpty
  | _ :: rest => startsWithL sub l || containsSub rest sub

/-- Go `strings.Contains s sub`. -/
def strContains (s sub : String) : Bool := containsSub s.toList sub.toList

/-- Go `filepath.Ext`: the suffix of the final path element starting at its
last dot, empty when the final element has no dot. -/
def fileExt (s : String) : String :=
  let baseRev := s.toList.reverse.takeWhile (fun c => c ≠ '/')
  let pre := baseRev.takeWhile (fun c => c ≠ '.')
  if pre.length = baseRev.length then "" else String.mk ('.' :: pre.reverse)

/-- Modelled from the spec: the Architecture component exposes PtrSize,
BreakpointInstruction and BreakpointSize (the arch file is not under src). -/
structure Arch where
  ptrSize : Nat
  breakpointSize : Nat
  breakpointInstruction : List Nat
deriving DecidableEq

/-- A resolved code location (pc, file, line, function name). -/
structure Location where
  pc : Nat
  file : String
  line : Int
  fnName : Option String
deriving DecidableEq

/-- A function of the symbol table (`gosym.Func`): name and entry PC. -/
structure GoFunc where
  name : String
  entry : Nat
deriving DecidableEq

/-- Result of `goSymTable.LineToPC`: a pc, the function containing it (nil
when the lookup failed) and whether an error was returned. -/
structure LineToPCRes where
  pc : Nat
  fn : Option GoFunc
  failed : Bool
deriving DecidableEq

/-- The Symbols collaborator (external per the spec): function lookup,
PC-to-line and line-to-PC resolution. -/
structure SymTable where
  lookupFunc : String → Option GoFunc
  pcToLine : Nat → String × Int
  lineToPC : String → Int → LineToPCRes

/-- Modelled from the spec: the dead tasklet status constant of the target
runtime (`Gdead`, defined in the variables file which is not under src). -/
def Gdead : Nat := 6

/-- A breakpoint table entry: address, saved original bytes, id, temp flag and
optional tasklet-id condition (the breakpoints file is not under src; fields
follow the spec's Breakpoint attributes). -/
structure Breakpoint where
  addr : Nat
  originalData : List Nat
  id : Int
  temp : Bool
  cond : Option Int
deriving DecidableEq

/-- A tasklet (G) snapshot: id, status, current location, optional backing
thread id, channel-receive block state and the resume-return-address outcome
(`chanRecvReturnAddr` lives in a file not under src and is carried as a
per-tasklet oracle). -/
structure G where
  id : Int
  status : Nat
  thread : Option Int
  currentLoc : Location
  chanRecvBlockedFlag : Bool
  chanRecvRet : Except GoErr Nat
deriving DecidableEq

/-- An OS thread wrapper.  `getgResult`, `locResult`, `blockedFlag`, `pc` and
`pcReadErr` stand for the Thread accessors GetG / Location / blocked / PC of
the threads file (not under src): while the tracee is stopped they are
deterministic reads, embedded as per-thread oracle fields. -/
structure Thread where
  id : Int
  currentBreakpoint : Option Breakpoint
  breakpointConditionMet : Bool
  running : Bool
  blockedFlag : Bool
  getgResult : Except GoErr G
  locResult : Except GoErr Location
  pc : Nat
  pcReadErr : Option GoErr
deriving DecidableEq

/-- The default thread value used to totalize current-thread lookup; the code
relies on the invariant that the current thread is a member of the thread
table. -/
def defaultThread : Thread :=
  { id := 0, currentBreakpoint := none, breakpointConditionMet := false,
    running := false, blockedFlag := false,
    getgResult := Except.error (GoErr.otherErr "no thread"),
    locResult := Except.error (GoErr.otherErr "no thread"),
    pc := 0, pcReadErr := none }

/-- The Process state (struct `Process` of proc.go).  `mem` is the tracee's
memory, `readFail` injects read failures of the ptrace layer, and `addrFor`,
`parseg`, `pcToFunc`, `goSymTable` are the DWARF/symbol collaborators. -/
structure Process where
  pid : Int
  breakpoints : List (Nat × Breakpoint)
  threads : List (Int × Thread)
  currentThreadId : Int
  selectedGoroutine : Option G
  allGCache : GoSlice G
  arch : Arch
  breakpointIDCounter : Int
  tempBreakpointIDCounter : Int
  halt : Bool
  exited : Bool
  mem : List (Nat × Nat)
  readFail : Nat → Nat → Option GoErr
  addrFor : String → Except GoErr Nat
  parseg : Nat → Except GoErr G
  pcToFunc : Nat → Option String
  goSymTable : SymTable

/-- The thread `dbp.CurrentThread` points to (a member of the thread table by
the code's invariant; totalized with `defaultThread`). -/
def Process.currentThread (dbp : Process) : Thread :=
  (lookupA dbp.threads dbp.currentThreadId).getD defaultThread

/-- Modelled from the spec: `Thread.readMemory` is a thin ptrace accessor (the
threads file is not under src); a failing read yields an empty byte slice and
an error, a successful read yields exactly `len` bytes. -/
def Process.readMemory (dbp : Process) (a len : Nat) : List Nat × Option GoErr :=
  match dbp.readFail a len with
  | some e => ([], some e)
  | none => (readBytes dbp.mem a len, none)

/-- Go `binary.LittleEndian.Uint64`: decodes 8 bytes, panicking (None) when
fewer than 8 bytes are supplied; bytes are taken mod 256. -/
def leUint64 (b : List Nat) : Option Nat :=
  if b.length < 8 then none
  else some ((List.range 8).foldl (fun acc i => acc + (b.getD i 0 % 256) * 256 ^ i) 0)

/-- `Process.FindBreakpoint` (proc.go:604-614): the entry at
`pc - BreakpointSize` when present (post-trap PC), else the entry at `pc`. -/
def Process.FindBreakpoint (dbp : Process) (pc : Nat) : Option Breakpoint :=
  match lookupA dbp.breakpoints (u64sub pc dbp.arch.breakpointSize) with
  | some bp => some bp
  | none => lookupA dbp.breakpoints pc

/-- Modelled from the spec: `Breakpoint.Clear` restores the original bytes at
the breakpoint's address, failing with NotInstalled when the trap pattern is
not present (the breakpoints file is not under src). -/
def Breakpoint.clear (bp : Breakpoint) (arch : Arch) (mem : List (Nat × Nat)) :
    List (Nat × Nat) × GoRes Breakpoint :=
  if readBytes mem bp.addr arch.breakpointSize = arch.breakpointInstruction then
    (writeBytes mem bp.addr bp.originalData, GoRes.ok bp)
  else (mem, GoRes.err (GoErr.notInstalled bp.addr))

/-- `Process.ClearBreakpoint` (proc.go:226-239).  Note that the table delete
uses the argument `addr`, not the found breakpoint's own address. -/
def Process.ClearBreakpoint (dbp : Process) (addr : Nat) : Process × GoRes Breakpoint :=
  match dbp.FindBreakpoint addr with
  | none => (dbp, GoRes.err (GoErr.noBreakpoint addr))
  | some bp =>
    match bp.clear dbp.arch dbp.mem with
    | (_, GoRes.err e) => (dbp, GoRes.err e)
    | (_, GoRes.panicked) => (dbp, GoRes.panicked)
    | (mem2, GoRes.ok _) =>
      ({ dbp with mem := mem2, breakpoints := eraseA dbp.breakpoints addr }, GoRes.ok bp)

/-- Modelled from the spec: lower-case `setBreakpoint` (breakpoints file, not
under src) fails with BreakpointExists when `addr` is already a table key;
otherwise it allocates an id from the user or temp counter, saves the original
bytes at `addr`, writes the trap pattern and inserts the entry.  The thread id
argument of the Go function only carries the ptrace context and is dropped. -/
def Process.setBreakpoint (dbp : Process) (addr : Nat) (temp : Bool) :
    Process × GoRes Breakpoint :=
  if (lookupA dbp.breakpoints addr).isSome then
    (dbp, GoRes.err (GoErr.breakpointExists addr))
  else
    let newId := if temp then dbp.tempBreakpointIDCounter + 1 else dbp.breakpointIDCounter + 1
    let original := readBytes dbp.mem addr dbp.arch.breakpointSize
    let bp : Breakpoint := ⟨addr, original, newId, temp, none⟩
    ({ dbp with
        mem := writeBytes dbp.mem addr dbp.arch.breakpointInstruction,
        breakpoints := dbp.breakpoints ++ [(addr, bp)],
        breakpointIDCounter := if temp then dbp.breakpointIDCounter else newId,
        tempBreakpointIDCounter := if temp then newId else dbp.tempBreakpointIDCounter },
      GoRes.ok bp)

/-- `Process.SetBreakpoint` (proc.go:216-218). -/
def Process.SetBreakpoint (dbp : Process) (addr : Nat) : Process × GoRes Breakpoint :=
  dbp.setBreakpoint addr false

/-- `Process.SetTempBreakpoint` (proc.go:221-223). -/
def Process.SetTempBreakpoint (dbp : Process) (addr : Nat) : Process × GoRes Breakpoint :=
  dbp.setBreakpoint addr true

/-- Modelled from the spec: `Breakpoint.checkCondition` returns true when the
condition is unset, otherwise whether the hitting thread's tasklet has the
condition's id (false when the tasklet cannot be read). -/
def Breakpoint.checkCondition (bp : Breakpoint) (th : Thread) : Bool :=
  match bp.cond with
  | none => true
  | some c =>
    match th.getgResult with
    | Except.ok g => g.id == c
    | Except.error _ => false

/-- Modelled from the spec: `Thread.onTriggeredBreakpoint` is CurrentBreakpoint
non-null and BreakpointConditionMet. -/
def Thread.onTriggeredBreakpoint (th : Thread) : Bool :=
  th.currentBreakpoint.isSome && th.breakpointConditionMet

/-- Modelled from the spec: `Thread.onTriggeredTempBreakpoint` is triggered and
the latched breakpoint's temp flag set. -/
def Thread.onTriggeredTempBreakpoint (th : Thread) : Bool :=
  th.onTriggeredBreakpoint && ((th.currentBreakpoint.map (fun bp => bp.temp)).getD false)

/-- The per-thread flag update of runBreakpointConditions (proc.go:354-359):
threads without a latched breakpoint keep their flag, the others get their
BreakpointConditionMet recomputed from the latched breakpoint's condition. -/
def condUpdate (th : Thread) : Thread :=
  { th with breakpointConditionMet :=
      ((th.currentBreakpoint.map (fun bp => bp.checkCondition th)).getD th.breakpointConditionMet) }

/-- The single pass of runBreakpointConditions (proc.go:354-372): update every
latched thread's condition flag and select the first thread on a triggered
temp breakpoint and the first on a triggered non-temp breakpoint. -/
def rbcPass : List (Int × Thread) → List (Int × Thread) × Option Thread × Option Thread
  | [] => ([], none, none)
  | (k, th) :: rest =>
    if (condUpdate th).onTriggeredBreakpoint then
      if (condUpdate th).onTriggeredTempBreakpoint then
        ((k, condUpdate th) :: (rbcPass rest).1, some (condUpdate th), (rbcPass rest).2.2)
      else ((k, condUpdate th) :: (rbcPass rest).1, (rbcPass rest).2.1, some (condUpdate th))
    else ((k, condUpdate th) :: (rbcPass rest).1, (rbcPass rest).2)

/-- `Process.SwitchThread` (proc.go:454-461): set CurrentThread, recompute
SelectedGoroutine from it (nil when its GetG fails), UnknownThread when the
tid is absent. -/
def Process.SwitchThread (dbp : Process) (tid : Int) : Process × GoRes Unit :=
  match lookupA dbp.threads tid with
  | some th =>
    ({ dbp with currentThreadId := tid, selectedGoroutine := th.getgResult.toOption },
      GoRes.ok ())
  | none => (dbp, GoRes.err (GoErr.unknownThread tid))

/-- `Process.runBreakpointConditions` (proc.go:348-388): after the pass, make
the first triggered temp thread current (or the first triggered user thread)
unless the current thread is already on such a breakpoint. -/
def Process.runBreakpointConditions (dbp : Process) : Process × GoRes Unit :=
  match (rbcPass dbp.threads).2.1 with
  | some t =>
    if ({ dbp with threads := (rbcPass dbp.threads).1 } : Process).currentThread.onTriggeredTempBreakpoint then
      ({ dbp with threads := (rbcPass dbp.threads).1 }, GoRes.ok ())
    else ({ dbp with threads := (rbcPass dbp.threads).1 } : Process).SwitchThread t.id
  | none =>
    match (rbcPass dbp.threads).2.2 with
    | some t =>
      if ({ dbp with threads := (rbcPass dbp.threads).1 } : Process).currentThread.onTriggeredBreakpoint then
        ({ dbp with threads := (rbcPass dbp.threads).1 }, GoRes.ok ())
      else ({ dbp with threads := (rbcPass dbp.threads).1 } : Process).SwitchThread t.id
    | none => ({ dbp with threads := (rbcPass dbp.threads).1 }, GoRes.ok ())

/-- The breakpoint-clearing loop of clearTempBreakpoints (proc.go:666-673),
iterating over a snapshot of the table. -/
def ctbLoop (dbp : Process) : List (Nat × Breakpoint) → Process × GoRes Unit
  | [] => (dbp, GoRes.ok ())
  | (_, bp) :: rest =>
    if bp.temp then
      match dbp.ClearBreakpoint bp.addr with
      | (dbp2, GoRes.ok _) => ctbLoop dbp2 rest
      | (dbp2, GoRes.err e) => (dbp2, GoRes.err e)
      | (dbp2, GoRes.panicked) => (dbp2, GoRes.panicked)
    else ctbLoop dbp rest

/-- The latch-dropping step of clearTempBreakpoints (proc.go:674-678): a
thread whose latched breakpoint is temporary loses the latch. -/
def clearTempLatch (th : Thread) : Thread :=
  if (th.currentBreakpoint.map (fun bp => bp.temp)).getD false then
    { th with currentBreakpoint := none }
  else th

/-- `Process.clearTempBreakpoints` (proc.go:665-680): clear every temp
breakpoint of the table, then drop every thread latch that points at a temp
breakpoint. -/
def Process.clearTempBreakpoints (dbp : Process) : Process × GoRes Unit :=
  match ctbLoop dbp dbp.breakpoints with
  | (dbp2, GoRes.ok _) =>
    ({ dbp2 with threads := dbp2.threads.map (fun p => (p.1, clearTempLatch p.2)) },
      GoRes.ok ())
  | r => r

/-- `Process.Continue` (proc.go:324-346), the resume loop.  `continueOnce`
(proc.go:391-434) is driven entirely by the platform collaborators
(thread Step/resume, trapWait, Halt, setExtraBreakpoints), none of which are
under src; it is passed in as the arbitrary state transformer `step`.  The
loop carries fuel; `none` means the loop did not return within the fuel.
Go computes `exitAnyway` from the post-continueOnce state before running
runBreakpointConditions; the model reads the same immutable intermediate
state `dbp1` at the use site, which is the identical value. -/
def Process.Continue (step : Process → Process × GoRes Unit) :
    Nat → Process → Process × Option (GoRes Unit)
  | 0, dbp => (dbp, none)
  | fuel + 1, dbp =>
    match step dbp with
    | (dbp1, GoRes.err e) => (dbp1, some (GoRes.err e))
    | (dbp1, GoRes.panicked) => (dbp1, some GoRes.panicked)
    | (dbp1, GoRes.ok _) =>
      match dbp1.runBreakpointConditions with
      | (dbp2, GoRes.err e) => (dbp2, some (GoRes.err e))
      | (dbp2, GoRes.panicked) => (dbp2, some GoRes.panicked)
      | (dbp2, GoRes.ok _) =>
        if dbp2.currentThread.onTriggeredBreakpoint then
          if dbp2.currentThread.onTriggeredTempBreakpoint then
            match dbp2.clearTempBreakpoints with
            | (dbp3, GoRes.ok _) => (dbp3, some (GoRes.ok ()))
            | (dbp3, GoRes.err e) => (dbp3, some (GoRes.err e))
            | (dbp3, GoRes.panicked) => (dbp3, some GoRes.panicked)
          else (dbp2, some (GoRes.ok ()))
        else if dbp1.currentThread.currentBreakpoint.isNone then (dbp2, some (GoRes.ok ()))
        else Process.Continue step fuel dbp2

/-- The tasklet-to-live-thread map built at the top of GoroutinesInfo
(proc.go:493-501): every non-blocked thread whose GetG succeeds contributes
an entry keyed by its tasklet's id. -/
def buildThreadG : List (Int × Thread) → List (Int × Thread)
  | [] => []
  | (_, th) :: rest =>
    if th.blockedFlag then buildThreadG rest
    else
      match th.getgResult with
      | Except.ok g => insertA (buildThreadG rest) g.id th
      | Except.error _ => buildThreadG rest

/-- The enumeration loop of GoroutinesInfo (proc.go:525-542): parseG each
array slot, attach the live thread (preferring its Location), keep non-dead
tasklets. -/
def collectGs (dbp : Process) (threadg : List (Int × Thread)) (allgptr : Nat) :
    Nat → Nat → GoSlice G → GoRes (GoSlice G)
  | 0, _, acc => GoRes.ok acc
  | n + 1, i, acc =>
    match dbp.parseg ((allgptr + i * dbp.arch.ptrSize) % 2 ^ 64) with
    | Except.error e => GoRes.err e
    | Except.ok g =>
      match lookupA threadg g.id with
      | some th =>
        match th.locResult with
        | Except.error e => GoRes.err e
        | Except.ok loc =>
          if g.status ≠ Gdead then
            collectGs dbp threadg allgptr n (i + 1)
              (acc.push { g with thread := some th.id, currentLoc := loc })
          else collectGs dbp threadg allgptr n (i + 1) acc
      | none =>
        if g.status ≠ Gdead then collectGs dbp threadg allgptr n (i + 1) (acc.push g)
        else collectGs dbp threadg allgptr n (i + 1) acc

/-- `Process.GoroutinesInfo` (proc.go:482-545).  The cache is returned when
non-nil; otherwise read `runtime.allglen` (error-checked read, unchecked
decode), resolve `runtime.allgs` falling back to `runtime.allg`, read the
array base pointer (the read error is discarded, the decode is unchecked, so
a failed or short read panics), enumerate, filter dead tasklets and cache. -/
def Process.GoroutinesInfo (dbp : Process) : Process × GoRes (GoSlice G) :=
  if dbp.allGCache.isNil = false then (dbp, GoRes.ok dbp.allGCache)
  else
    match dbp.addrFor "runtime.allglen" with
    | Except.error e => (dbp, GoRes.err e)
    | Except.ok addr =>
      match dbp.readMemory addr 8 with
      | (_, some e) => (dbp, GoRes.err e)
      | (allglenBytes, none) =>
        match leUint64 allglenBytes with
        | none => (dbp, GoRes.panicked)
        | some allglen =>
          match
            (match dbp.addrFor "runtime.allgs" with
             | Except.ok a => Except.ok a
             | Except.error _ => dbp.addrFor "runtime.allg") with
          | Except.error e => (dbp, GoRes.err e)
          | Except.ok allgentryaddr =>
            match leUint64 (dbp.readMemory allgentryaddr dbp.arch.ptrSize).1 with
            | none => (dbp, GoRes.panicked)
            | some allgptr =>
              match collectGs dbp (buildThreadG dbp.threads) allgptr allglen 0 GoSlice.nilS with
              | GoRes.err e => (dbp, GoRes.err e)
              | GoRes.panicked => (dbp, GoRes.panicked)
              | GoRes.ok allg => ({ dbp with allGCache := allg }, GoRes.ok allg)

/-- `Process.FindGoroutine` (proc.go:774-789): gid -1 resolves to the selected
goroutine (possibly nil); otherwise search the enumeration for the id. -/
def Process.FindGoroutine (dbp : Process) (gid : Int) : Process × GoRes (Option G) :=
  if gid = -1 then (dbp, GoRes.ok dbp.selectedGoroutine)
  else
    match dbp.GoroutinesInfo with
    | (dbp1, GoRes.err e) => (dbp1, GoRes.err e)
    | (dbp1, GoRes.panicked) => (dbp1, GoRes.panicked)
    | (dbp1, GoRes.ok gs) =>
      match gs.elems.find? (fun g => g.id == gid) with
      | some g => (dbp1, GoRes.ok (some g))
      | none => (dbp1, GoRes.err (GoErr.unknownGoroutine gid))

/-- `Process.SwitchGoroutine` (proc.go:464-478): nil resolution (gid -1 with
nothing selected) is a no-op; a tasklet with a live backing thread delegates
to SwitchThread; otherwise SelectedGoroutine is set directly. -/
def Process.SwitchGoroutine (dbp : Process) (gid : Int) : Process × GoRes Unit :=
  match dbp.FindGoroutine gid with
  | (dbp1, GoRes.err e) => (dbp1, GoRes.err e)
  | (dbp1, GoRes.panicked) => (dbp1, GoRes.panicked)
  | (dbp1, GoRes.ok none) => (dbp1, GoRes.ok ())
  | (dbp1, GoRes.ok (some g)) =>
    match g.thread with
    | some tid => dbp1.SwitchThread tid
    | none => ({ dbp1 with selectedGoroutine := some g }, GoRes.ok ())

/-- The loop body of setChanRecvBreakpoints (proc.go:300-319): for each
channel-receive-blocked tasklet, compute the resume-return address (skipping
NullAddr failures) and install a temp breakpoint there (skipping duplicate
addresses). -/
def scrbLoop (dbp : Process) : List G → Nat → Process × GoRes Nat
  | [], count => (dbp, GoRes.ok count)
  | g :: rest, count =>
    if g.chanRecvBlockedFlag then
      match g.chanRecvRet with
      | Except.error GoErr.nullAddr => scrbLoop dbp rest count
      | Except.error e => (dbp, GoRes.err e)
      | Except.ok ret =>
        match dbp.SetTempBreakpoint ret with
        | (dbp2, GoRes.err (GoErr.breakpointExists _)) => scrbLoop dbp2 rest count
        | (dbp2, GoRes.err e) => (dbp2, GoRes.err e)
        | (dbp2, GoRes.panicked) => (dbp2, GoRes.panicked)
        | (dbp2, GoRes.ok _) => scrbLoop dbp2 rest (count + 1)
    else scrbLoop dbp rest count

/-- `Process.setChanRecvBreakpoints` (proc.go:293-321). -/
def Process.setChanRecvBreakpoints (dbp : Process) : Process × GoRes Nat :=
  match dbp.GoroutinesInfo with
  | (dbp1, GoRes.err e) => (dbp1, GoRes.err e)
  | (dbp1, GoRes.panicked) => (dbp1, GoRes.panicked)
  | (dbp1, GoRes.ok allg) => scrbLoop dbp1 allg.elems 0

/-- Is any breakpoint of the table temporary (the guard loop of Next,
proc.go:248-252)? -/
def anyTempBp (l : List (Nat × Breakpoint)) : Bool := l.any (fun p => p.2.temp)

/-- The condition-stamping loop of Next (proc.go:283-287): every temp
breakpoint's condition is set to the current tasklet's id. -/
def stampCond (l : List (Nat × Breakpoint)) (gid : Int) : List (Nat × Breakpoint) :=
  l.map (fun p => if p.2.temp then (p.1, { p.2 with cond := some gid }) else p)

/-- `Process.Next` (proc.go:247-291): refuse while temp breakpoints exist,
snapshot the current tasklet, install chan-recv temps, run
`Thread.setNextBreakpoints` (a collaborator of the threads file, not under
src, passed in as `snb`) classifying its error, stamp the temps' condition
unless the tasklet is exiting, then Continue. -/
def Process.Next (snb step : Process → Process × GoRes Unit) (fuel : Nat)
    (dbp : Process) : Process × Option (GoRes Unit) :=
  if anyTempBp dbp.breakpoints then
    (dbp, some (GoRes.err (GoErr.otherErr "next while nexting")))
  else
    match dbp.currentThread.getgResult with
    | Except.error e => (dbp, some (GoRes.err e))
    | Except.ok g =>
      match dbp.setChanRecvBreakpoints with
      | (dbp1, GoRes.err e) => (dbp1, some (GoRes.err e))
      | (dbp1, GoRes.panicked) => (dbp1, some GoRes.panicked)
      | (dbp1, GoRes.ok _) =>
        match snb dbp1 with
        | (dbp2, GoRes.panicked) => (dbp2, some GoRes.panicked)
        | (dbp2, GoRes.ok _) =>
          Process.Continue step fuel { dbp2 with breakpoints := stampCond dbp2.breakpoints g.id }
        | (dbp2, GoRes.err GoErr.threadBlocked) =>
          Process.Continue step fuel { dbp2 with breakpoints := stampCond dbp2.breakpoints g.id }
        | (dbp2, GoRes.err GoErr.noReturnAddr) =>
          Process.Continue step fuel { dbp2 with breakpoints := stampCond dbp2.breakpoints g.id }
        | (dbp2, GoRes.err (GoErr.goroutineExiting goid)) =>
          if goid = g.id then Process.Continue step fuel dbp2
          else Process.Continue step fuel { dbp2 with breakpoints := stampCond dbp2.breakpoints g.id }
        | (dbp2, GoRes.err e) =>
          (dbp2.clearTempBreakpoints.1, some (GoRes.err e))

/-- `Process.RequestManualStop` (proc.go:208-211): set the halt flag; the
platform-specific signal delivery (not under src) changes no modelled state. -/
def Process.RequestManualStop (dbp : Process) : Process :=
  { dbp with halt := true }

/-- Modelled from the spec: `Thread.SetCurrentBreakpoint` (threads file, not
under src) reads the PC, looks up `PC - BreakpointSize` in the table, and if
present latches the breakpoint and rewinds the PC to the breakpoint address. -/
def Thread.SetCurrentBreakpoint (th : Thread) (dbp : Process) : Thread × GoRes Unit :=
  match th.pcReadErr with
  | some e => (th, GoRes.err e)
  | none =>
    match lookupA dbp.breakpoints (u64sub th.pc dbp.arch.breakpointSize) with
    | some bp =>
      ({ th with currentBreakpoint := some bp, pc := u64sub th.pc dbp.arch.breakpointSize },
        GoRes.ok ())
    | none => (th, GoRes.ok ())

/-- `Process.handleBreakpointOnThread` (proc.go:682-710): set the thread's
current breakpoint; a latched breakpoint or a pending halt request counts as a
valid stop; a stop inside `runtime.breakpoint` is stepped over twice (the
single-step primitive of the threads file is passed as `stepTh`); anything
else is NoBreakpoint.  The Go function returns the thread; the model returns
its id. -/
def Process.handleBreakpointOnThread (dbp : Process)
    (stepTh : Process → Int → Process × GoRes Unit) (id : Int) : Process × GoRes Int :=
  match lookupA dbp.threads id with
  | none => (dbp, GoRes.err (GoErr.otherErr "could not find thread"))
  | some thread =>
    match thread.SetCurrentBreakpoint dbp with
    | (_, GoRes.err e) => (dbp, GoRes.err e)
    | (_, GoRes.panicked) => (dbp, GoRes.panicked)
    | (thread2, GoRes.ok _) =>
      if thread2.currentBreakpoint.isSome || dbp.halt then
        ({ dbp with threads := updateA dbp.threads id thread2 }, GoRes.ok thread2.id)
      else
        match thread2.pcReadErr with
        | some e => ({ dbp with threads := updateA dbp.threads id thread2 }, GoRes.err e)
        | none =>
          if dbp.pcToFunc thread2.pc = some "runtime.breakpoint" then
            match stepTh { dbp with threads := updateA dbp.threads id thread2 } thread2.id with
            | (dbp2, GoRes.err e) => (dbp2, GoRes.err e)
            | (dbp2, GoRes.panicked) => (dbp2, GoRes.panicked)
            | (dbp2, GoRes.ok _) =>
              match stepTh dbp2 thread2.id with
              | (dbp3, GoRes.err e) => (dbp3, GoRes.err e)
              | (dbp3, GoRes.panicked) => (dbp3, GoRes.panicked)
              | (dbp3, GoRes.ok _) => (dbp3, GoRes.ok thread2.id)
          else ({ dbp with threads := updateA dbp.threads id thread2 },
                GoRes.err (GoErr.noBreakpoint thread2.pc))

/-- The scanning loop of FindFunctionLocation's firstLine mode
(proc.go:181-195): advance line numbers; a line resolving to no function
continues; a function name merely containing funcName continues; a different
function breaks (caller returns the entry); the exact name returns the pc.
`none` means the loop did not terminate within the fuel. -/
def firstLineLoop (st : SymTable) (funcName filename : String) :
    Nat → Int → Option (Option Nat)
  | 0, _ => none
  | fuel + 1, lineno =>
    match (st.lineToPC filename (lineno + 1)).fn with
    | some fn =>
      if fn.name ≠ funcName then
        if strContains fn.name funcName then firstLineLoop st funcName filename fuel (lineno + 1)
        else some none
      else some (some (st.lineToPC filename (lineno + 1)).pc)
    | none => firstLineLoop st funcName filename fuel (lineno + 1)

/-- `Process.FindFunctionLocation` (proc.go:170-204). -/
def Process.FindFunctionLocation (dbp : Process) (fuel : Nat) (funcName : String)
    (firstLine : Bool) (lineOffset : Int) : Option (GoRes Nat) :=
  match dbp.goSymTable.lookupFunc funcName with
  | none => some (GoRes.err (GoErr.functionNotFound funcName))
  | some origfn =>
    if firstLine then
      let fl := dbp.goSymTable.pcToLine origfn.entry
      if fileExt fl.1 ≠ ".go" then some (GoRes.ok origfn.entry)
      else
        match firstLineLoop dbp.goSymTable funcName fl.1 fuel fl.2 with
        | none => none
        | some none => some (GoRes.ok origfn.entry)
        | some (some pc) => some (GoRes.ok pc)
    else if lineOffset > 0 then
      let fl := dbp.goSymTable.pcToLine origfn.entry
      let r := dbp.goSymTable.lineToPC fl.1 (fl.2 + lineOffset)
      some (if r.failed then GoRes.err (GoErr.otherErr "LineToPC") else GoRes.ok r.pc)
    else some (GoRes.ok origfn.entry)

/-- The state-mutating operations of the core, used to state flag invariants.
Operations whose body calls collaborators not under src carry the collaborator
as a function argument. -/
inductive CoreOp where
  | requestManualStop
  | setBreakpointOp (addr : Nat)
  | setTempBreakpointOp (addr : Nat)
  | clearBreakpointOp (addr : Nat)
  | clearTempBreakpointsOp
  | switchThreadOp (tid : Int)
  | switchGoroutineOp (gid : Int)
  | goroutinesInfoOp
  | findGoroutineOp (gid : Int)
  | setChanRecvOp
  | runBpCondsOp
  | handleBpOp (stepTh : Process → Int → Process × GoRes Unit) (id : Int)
  | continueOp (step : Process → Process × GoRes Unit) (fuel : Nat)
  | nextOp (snb step : Process → Process × GoRes Unit) (fuel : Nat)

/-- The state transition of a core operation. -/
def applyCoreOp : CoreOp → Process → Process
  | CoreOp.requestManualStop, s => s.RequestManualStop
  | CoreOp.setBreakpointOp a, s => (s.SetBreakpoint a).1
  | CoreOp.setTempBreakpointOp a, s => (s.SetTempBreakpoint a).1
  | CoreOp.clearBreakpointOp a, s => (s.ClearBreakpoint a).1
  | CoreOp.clearTempBreakpointsOp, s => s.clearTempBreakpoints.1
  | CoreOp.switchThreadOp t, s => (s.SwitchThread t).1
  | CoreOp.switchGoroutineOp g, s => (s.SwitchGoroutine g).1
  | CoreOp.goroutinesInfoOp, s => s.GoroutinesInfo.1
  | CoreOp.findGoroutineOp g, s => (s.FindGoroutine g).1
  | CoreOp.setChanRecvOp, s => s.setChanRecvBreakpoints.1
  | CoreOp.runBpCondsOp, s => s.runBreakpointConditions.1
  | CoreOp.handleBpOp f i, s => (s.handleBreakpointOnThread f i).1
  | CoreOp.continueOp f fuel, s => (Process.Continue f fuel s).1
  | CoreOp.nextOp snb f fuel, s => (Process.Next snb f fuel s).1

/-- A collaborator state transformer that leaves the halt flag alone. -/
def haltPreserving (f : Process → Process × GoRes Unit) : Prop :=
  ∀ s, (f s).1.halt = s.halt

/-- A per-thread collaborator transformer that leaves the halt flag alone. -/
def haltPreserving2 (f : Process → Int → Process × GoRes Unit) : Prop :=
  ∀ s i, (f s i).1.halt = s.halt

/-- The collaborator arguments of an operation leave the halt flag alone
(the spec describes no reset of the halt flag in any collaborator). -/
def CoreOp.oracleOK : CoreOp → Prop
  | CoreOp.handleBpOp f _ => haltPreserving2 f
  | CoreOp.continueOp f _ => haltPreserving f
  | CoreOp.nextOp snb f _ => haltPreserving snb ∧ haltPreserving f
  | _ => True

/-- Well-formed thread table: distinct keys, and each thread's id equals its
key (the code maintains this: threads are inserted keyed by their own id). -/
def wfTList (l : List (Int × Thread)) : Prop :=
  (l.map Prod.fst).Nodup ∧ ∀ e ∈ l, e.2.id = e.1

/-- Well-formed breakpoint table: each breakpoint's address equals its key
(the code inserts breakpoints keyed by their own address). -/
def wfBList (l : List (Nat × Breakpoint)) : Prop :=
  ∀ e ∈ l, e.2.addr = e.1

instance (l : List (Int × Thread)) : Decidable (wfTList l) := by
  unfold wfTList
  infer_instance

instance (l : List (Nat × Breakpoint)) : Decidable (wfBList l) := by
  unfold wfBList
  exact List.decidableBAll _ _

/-- The stop condition Continue guarantees on a nil return: the current
thread is latched on a breakpoint whose condition evaluated true (with every
temp breakpoint cleared from the table if that breakpoint is temporary), or
the stop carried no breakpoint. -/
def contPost (s2 : Process) : Prop :=
  (∃ bp, s2.currentThread.currentBreakpoint = some bp ∧
         s2.currentThread.breakpointConditionMet = true ∧
         (bp.temp = true → ∀ e ∈ s2.breakpoints, e.2.temp = false)) ∨
  s2.currentThread.currentBreakpoint = none

/-- A line the firstLine scan of FindFunctionLocation passes over: it
resolves to no function, or to a function whose name differs from funcName
while containing it. -/
def skipLine (st : SymTable) (funcName filename : String) (ln : Int) : Bool :=
  ((st.lineToPC filename ln).fn.map
    (fun f => decide (f.name ≠ funcName) && strContains f.name funcName)).getD true

/-! Concrete fixture states used by counterexamples and witnesses. -/

/-- A one-byte-trap architecture (amd64-like: trap `0xCC`, pointers 8 bytes). -/
def sampleArch : Arch := ⟨8, 1, [204]⟩

/-- A trivial location. -/
def sampleLoc : Location := ⟨0, "", 0, none⟩

/-- A tasklet with id 7 and no backing thread. -/
def sampleG7 : G := ⟨7, 2, none, sampleLoc, false, Except.error GoErr.nullAddr⟩

/-- A user (non-temp) breakpoint at address 100 over a NOP byte. -/
def sampleUserBp : Breakpoint := ⟨100, [144], 1, false, none⟩

/-- A thread with id 1, no latch, running tasklet `sampleG7`. -/
def sampleT1 : Thread :=
  ⟨1, none, false, false, false, Except.ok sampleG7, Except.ok sampleLoc, 0, none⟩

/-- An empty symbol table. -/
def sampleSym : SymTable := ⟨fun _ => none, fun _ => ("", 0), fun _ _ => ⟨0, none, true⟩⟩

/-- Failing collaborator oracles (never reached by the fixtures' runs). -/
def sampleAddrFor : String → Except GoErr Nat := fun _ => Except.error (GoErr.otherErr "no dwarf")

/-- A process stopped with one user breakpoint installed at 100, one thread,
and a populated (empty, non-nil) tasklet cache. -/
def sampleProc : Process :=
  ⟨42, [(100, sampleUserBp)], [(1, sampleT1)], 1, some sampleG7, ⟨false, []⟩, sampleArch,
   1, 0, false, false, [(100, 204), (200, 144)], fun _ _ => none, sampleAddrFor,
   fun _ => Except.error (GoErr.otherErr "no parseG"), fun _ => none, sampleSym⟩

/-- Claim C3: `ClearBreakpoint(bp.Addr + BreakpointSize)` (the post-trap
address) finds the breakpoint via FindBreakpoint and uninstalls it (the
original byte is restored), yet the table delete uses the argument address,
so the found breakpoint is still present in the table afterwards — the code
contradicts the spec's "uninstalls and deletes" and its own invariant that
every table entry is installed. -/
theorem clearBreakpoint_postTrap_keeps_entry_C3 :
    (sampleProc.ClearBreakpoint 101).2 = GoRes.ok sampleUserBp ∧
    lookupA (sampleProc.ClearBreakpoint 101).1.breakpoints 100 = some sampleUserBp ∧
    readByte (sampleProc.ClearBreakpoint 101).1.mem 100 = 144 ∧
    (sampleProc.ClearBreakpoint 102).2 = GoRes.err (GoErr.noBreakpoint 102) := by
  refine ⟨rfl, rfl, rfl, rfl⟩

/-- A process with a single breakpoint at address 2 (breakpoint size 1). -/
def sampleProcC4 : Process :=
  { sampleProc with breakpoints := [(2, ⟨2, [144], 1, false, none⟩)] }

/-- Claim C4, counterexample: FindBreakpoint(pc) and
FindBreakpoint(pc + BreakpointSize) do not always resolve to the same entry:
with a single table entry at address 2 and size 1, FindBreakpoint(1) finds
nothing while FindBreakpoint(2) finds the entry. -/
theorem findBreakpoint_shift_disagrees_C4 :
    ¬(sampleProcC4.FindBreakpoint 1 =
      sampleProcC4.FindBreakpoint ((1 + sampleProcC4.arch.breakpointSize) % 2 ^ 64)) := by
  decide

/-- Claim C4, amended: FindBreakpoint prefers the entry at
`pc - BreakpointSize` and falls back to the entry at `pc`; and whenever the
table holds an entry at `pc`, none at `pc - BreakpointSize`, and
`pc + BreakpointSize` does not overflow uint64, FindBreakpoint(pc) and
FindBreakpoint(pc + BreakpointSize) both resolve to the entry at `pc`. -/
theorem findBreakpoint_resolution_C4_amended :
    (∀ (dbp : Process) (pc : Nat) (bp : Breakpoint),
       lookupA dbp.breakpoints (u64sub pc dbp.arch.breakpointSize) = some bp →
       dbp.FindBreakpoint pc = some bp) ∧
    (∀ (dbp : Process) (pc : Nat),
       lookupA dbp.breakpoints (u64sub pc dbp.arch.breakpointSize) = none →
       dbp.FindBreakpoint pc = lookupA dbp.breakpoints pc) ∧
    (∀ (dbp : Process) (pc : Nat) (bp : Breakpoint),
       lookupA dbp.breakpoints pc = some bp →
       lookupA dbp.breakpoints (u64sub pc dbp.arch.breakpointSize) = none →
       pc + dbp.arch.breakpointSize < 2 ^ 64 →
       dbp.FindBreakpoint pc = some bp ∧
       dbp.FindBreakpoint ((pc + dbp.arch.breakpointSize) % 2 ^ 64) = some bp) := by
  refine ⟨?_, ?_, ?_⟩
  · intro dbp pc bp h
    unfold Process.FindBreakpoint
    rw [h]
  · intro dbp pc h
    unfold Process.FindBreakpoint
    rw [h]
  · intro dbp pc bp h1 h2 h3
    have hsz : dbp.arch.breakpointSize % 2 ^ 64 = dbp.arch.breakpointSize :=
      Nat.mod_eq_of_lt (by omega)
    have hmod : (pc + dbp.arch.breakpointSize) % 2 ^ 64 = pc + dbp.arch.breakpointSize :=
      Nat.mod_eq_of_lt h3
    have hback : u64sub (pc + dbp.arch.breakpointSize) dbp.arch.breakpointSize = pc := by
      unfold u64sub
      rw [hsz]
      have he : pc + dbp.arch.breakpointSize + (2 ^ 64 - dbp.arch.breakpointSize)
          = pc + 2 ^ 64 := by omega
      rw [he, Nat.add_mod_right]
      exact Nat.mod_eq_of_lt (by omega)
    constructor
    · unfold Process.FindBreakpoint
      rw [h2, h1]
    · unfold Process.FindBreakpoint
      rw [hmod, hback, h1]

/-- Claim C4, amended witness at a concrete table. -/
theorem findBreakpoint_resolution_C4_witness :
    sampleProcC4.FindBreakpoint 2 = some ⟨2, [144], 1, false, none⟩ ∧
    sampleProcC4.FindBreakpoint ((2 + sampleProcC4.arch.breakpointSize) % 2 ^ 64) =
      some ⟨2, [144], 1, false, none⟩ :=
  findBreakpoint_resolution_C4_amended.2.2 sampleProcC4 2 ⟨2, [144], 1, false, none⟩
    rfl rfl (by decide)

/-- Claim C6: Next with any temporary breakpoint already in the table fails
immediately with "next while nexting" and returns the state unchanged. -/
theorem next_while_nexting_C6 (snb step : Process → Process × GoRes Unit)
    (fuel : Nat) (dbp : Process) (h : anyTempBp dbp.breakpoints = true) :
    Process.Next snb step fuel dbp =
      (dbp, some (GoRes.err (GoErr.otherErr "next while nexting"))) := by
  unfold Process.Next
  rw [h]
  simp

/-- A process whose table already holds a temp breakpoint at 200. -/
def sampleProcC6 : Process :=
  { sampleProc with breakpoints := [(200, ⟨200, [144], 1, true, none⟩)] }

/-- Claim C6, witness: the guard fires on a concrete table with a temp entry. -/
theorem next_while_nexting_C6_witness :
    Process.Next (fun s => (s, GoRes.ok ())) (fun s => (s, GoRes.ok ())) 1 sampleProcC6 =
      (sampleProcC6, some (GoRes.err (GoErr.otherErr "next while nexting"))) :=
  next_while_nexting_C6 _ _ 1 sampleProcC6 rfl

/-- GoroutinesInfo returns the state unchanged or with only the tasklet cache
rewritten. -/
lemma goroutinesInfo_shape (s : Process) :
    s.GoroutinesInfo.1 = s ∨ ∃ c, s.GoroutinesInfo.1 = { s with allGCache := c } := by
  unfold Process.GoroutinesInfo
  repeat' split
  all_goals first
    | exact Or.inl rfl
    | exact Or.inr ⟨_, rfl⟩

/-- GoroutinesInfo only ever writes the tasklet cache: every other Process
field is returned unchanged. -/
lemma goroutinesInfo_fields (s : Process) :
    s.GoroutinesInfo.1.currentThreadId = s.currentThreadId ∧
    s.GoroutinesInfo.1.threads = s.threads ∧
    s.GoroutinesInfo.1.halt = s.halt ∧
    s.GoroutinesInfo.1.breakpoints = s.breakpoints ∧
    s.GoroutinesInfo.1.selectedGoroutine = s.selectedGoroutine := by
  rcases goroutinesInfo_shape s with h | ⟨c, h⟩ <;> rw [h] <;> exact ⟨rfl, rfl, rfl, rfl, rfl⟩

/-- FindGoroutine leaves the current thread selection unchanged. -/
lemma findGoroutine_cid (s : Process) (gid : Int) :
    (s.FindGoroutine gid).1.currentThreadId = s.currentThreadId := by
  unfold Process.FindGoroutine
  split
  · rfl
  · split
    · next h =>
      have := (goroutinesInfo_fields s).1
      rw [h] at this
      exact this
    · next h =>
      have := (goroutinesInfo_fields s).1
      rw [h] at this
      exact this
    · next dbp1 gs h =>
      have := (goroutinesInfo_fields s).1
      rw [h] at this
      split <;> exact this

/-- A tasklet with id 9 whose backing thread is thread 2. -/
def sampleGBound : G := ⟨9, 2, some 2, sampleLoc, false, Except.error GoErr.nullAddr⟩

/-- A second thread with id 2. -/
def sampleT2 : Thread :=
  ⟨2, none, false, false, false, Except.ok sampleG7, Except.ok sampleLoc, 0, none⟩

/-- A process whose current thread is 1 while the selected goroutine is bound
to thread 2. -/
def sampleProcC5 : Process :=
  { sampleProc with
    threads := [(1, sampleT1), (2, sampleT2)],
    selectedGoroutine := some sampleGBound }

/-- Claim C5, counterexample: SwitchGoroutine(-1) is not a no-op — with a
selected goroutine bound to thread 2 while thread 1 is current, it switches
CurrentThread to thread 2. -/
theorem switchGoroutine_minus_one_moves_thread_C5 :
    (sampleProcC5.SwitchGoroutine (-1)).1.currentThreadId = 2 ∧
    sampleProcC5.currentThreadId = 1 ∧
    (sampleProcC5.SwitchGoroutine (-1)).2 = GoRes.ok () := by
  refine ⟨rfl, rfl, rfl⟩

/-- Claim C5, amended: SwitchGoroutine(gid) is a no-op when gid resolves to no
goroutine (gid = -1 with nothing selected); when the resolved goroutine — for
gid = -1 the currently selected one — is bound to a live thread it delegates
to SwitchThread on that thread's id (which can change CurrentThread even for
gid = -1); when it has no backing thread it sets SelectedGoroutine to it and
CurrentThread stays what it was. -/
theorem switchGoroutine_cases_C5_amended :
    (∀ dbp : Process, dbp.selectedGoroutine = none →
       dbp.SwitchGoroutine (-1) = (dbp, GoRes.ok ())) ∧
    (∀ (dbp dbp1 : Process) (gid : Int) (g : G) (tid : Int),
       dbp.FindGoroutine gid = (dbp1, GoRes.ok (some g)) → g.thread = some tid →
       dbp.SwitchGoroutine gid = dbp1.SwitchThread tid) ∧
    (∀ (dbp dbp1 : Process) (gid : Int) (g : G),
       dbp.FindGoroutine gid = (dbp1, GoRes.ok (some g)) → g.thread = none →
       dbp.SwitchGoroutine gid = ({ dbp1 with selectedGoroutine := some g }, GoRes.ok ()) ∧
       ({ dbp1 with selectedGoroutine := some g }).currentThreadId = dbp.currentThreadId) := by
  refine ⟨?_, ?_, ?_⟩
  · intro dbp h
    unfold Process.SwitchGoroutine Process.FindGoroutine
    simp [h]
  · intro dbp dbp1 gid g tid h1 h2
    unfold Process.SwitchGoroutine
    rw [h1]
    dsimp only
    rw [h2]
  · intro dbp dbp1 gid g h1 h2
    constructor
    · unfold Process.SwitchGoroutine
      rw [h1]
      dsimp only
      rw [h2]
    · show dbp1.currentThreadId = dbp.currentThreadId
      have := findGoroutine_cid dbp gid
      rw [h1] at this
      exact this

/-- Claim C5, amended witness: the three cases at concrete states — nothing
selected (no-op), selected bound to thread 2 (delegates to SwitchThread 2),
and selected unbound (SelectedGoroutine set, CurrentThread untouched). -/
theorem switchGoroutine_cases_C5_witness :
    ({ sampleProc with selectedGoroutine := none }).SwitchGoroutine (-1) =
      ({ sampleProc with selectedGoroutine := none }, GoRes.ok ()) ∧
    sampleProcC5.SwitchGoroutine (-1) = sampleProcC5.SwitchThread 2 ∧
    (sampleProc.SwitchGoroutine (-1) =
      ({ sampleProc with selectedGoroutine := some sampleG7 }, GoRes.ok ()) ∧
     ({ sampleProc with selectedGoroutine := some sampleG7 }).currentThreadId =
       sampleProc.currentThreadId) := by
  refine ⟨switchGoroutine_cases_C5_amended.1 _ rfl,
          switchGoroutine_cases_C5_amended.2.1 sampleProcC5 sampleProcC5 (-1)
            sampleGBound 2 rfl rfl,
          switchGoroutine_cases_C5_amended.2.2 sampleProc sampleProc (-1) sampleG7 rfl rfl⟩

/-- The enumeration loop only appends tasklets whose status is not dead. -/
lemma collectGs_no_dead (dbp : Process) (tg : List (Int × Thread)) (p : Nat) :
    ∀ (n i : Nat) (acc out : GoSlice G),
      (∀ g ∈ acc.elems, g.status ≠ Gdead) →
      collectGs dbp tg p n i acc = GoRes.ok out →
      ∀ g ∈ out.elems, g.status ≠ Gdead := by
  intro n
  induction n with
  | zero =>
    intro i acc out hacc h
    unfold collectGs at h
    cases h
    exact hacc
  | succ m ih =>
    intro i acc out hacc h
    unfold collectGs at h
    split at h
    · cases h
    · split at h
      · split at h
        · cases h
        · split at h
          · next hlive =>
            refine ih (i + 1) _ out ?_ h
            intro g hg
            simp only [GoSlice.push, List.mem_append] at hg
            rcases hg with hg1 | hg2
            · exact hacc g hg1
            · rcases List.mem_singleton.mp hg2 with rfl
              exact hlive
          · exact ih (i + 1) acc out hacc h
      · split at h
        · next hlive =>
          refine ih (i + 1) _ out ?_ h
          intro g hg
          simp only [GoSlice.push, List.mem_append] at hg
          rcases hg with hg1 | hg2
          · exact hacc g hg1
          · rcases List.mem_singleton.mp hg2 with rfl
            exact hlive
        · exact ih (i + 1) acc out hacc h

/-- Claim C7, amended: GoroutinesInfo never returns a dead tasklet (given the
cache, which only ever holds earlier results, is nil or dead-free); and on a
process whose `allglen` reads zero it returns the zero-length nil slice with
no error — in Go the result can be the nil slice, not a non-nil empty one. -/
theorem goroutinesInfo_no_dead_C7_amended :
    (∀ (dbp dbp1 : Process) (gs : GoSlice G),
       (dbp.allGCache.isNil = false → ∀ g ∈ dbp.allGCache.elems, g.status ≠ Gdead) →
       dbp.GoroutinesInfo = (dbp1, GoRes.ok gs) →
       ∀ g ∈ gs.elems, g.status ≠ Gdead) ∧
    (∀ (dbp : Process) (a1 a2 : Nat) (b1 : List Nat) (p : Nat),
       dbp.allGCache.isNil = true →
       dbp.addrFor "runtime.allglen" = Except.ok a1 →
       dbp.readMemory a1 8 = (b1, none) →
       leUint64 b1 = some 0 →
       dbp.addrFor "runtime.allgs" = Except.ok a2 →
       leUint64 (dbp.readMemory a2 dbp.arch.ptrSize).1 = some p →
       dbp.GoroutinesInfo.2 = GoRes.ok (GoSlice.nilS : GoSlice G) ∧
       (GoSlice.nilS : GoSlice G).elems = []) := by
  constructor
  · intro dbp dbp1 gs hcache h
    unfold Process.GoroutinesInfo at h
    split at h
    · next hc =>
      rw [Prod.ext_iff] at h
      obtain ⟨-, h2⟩ := h
      cases h2
      exact hcache hc
    · repeat' split at h
      any_goals cases h
      all_goals (
        rename_i hcoll
        refine collectGs_no_dead dbp _ _ _ 0 GoSlice.nilS _ ?_ hcoll
        intro g hg
        simp [GoSlice.nilS] at hg)
  · intro dbp a1 a2 b1 p h1 h2 h3 h4 h5 h6
    unfold Process.GoroutinesInfo
    rw [h1]
    simp only [Bool.true_eq_false, if_false, h2, h3, h4, h5, h6]
    constructor
    · rfl
    · rfl

/-- A process with a nil tasklet cache whose runtime symbols resolve and whose
memory reads all yield zero bytes (so `allglen` is 0). -/
def sampleProcC7 : Process :=
  { sampleProc with
    allGCache := ⟨true, []⟩,
    mem := [],
    addrFor := fun n =>
      if n = "runtime.allglen" then Except.ok 1000
      else if n = "runtime.allgs" then Except.ok 2000
      else Except.error (GoErr.otherErr "no symbol") }

/-- Claim C7, counterexample: on a process with zero live tasklets
(`allglen` reads 0) GoroutinesInfo returns the Go nil slice — the returned
list is null, refuting "returns an empty list, never null". -/
theorem goroutinesInfo_nil_slice_C7 :
    sampleProcC7.GoroutinesInfo.2 = GoRes.ok (⟨true, []⟩ : GoSlice G) ∧
    (⟨true, []⟩ : GoSlice G).isNil = true := by
  refine ⟨rfl, rfl⟩

/-- Claim C7, amended witness: the dead-free guarantee applied at the cached
fixture, and the zero-tasklet run applied at the fresh fixture. -/
theorem goroutinesInfo_no_dead_C7_witness :
    (∀ g ∈ (⟨false, []⟩ : GoSlice G).elems, g.status ≠ Gdead) ∧
    sampleProcC7.GoroutinesInfo.2 = GoRes.ok (GoSlice.nilS : GoSlice G) := by
  constructor
  · exact goroutinesInfo_no_dead_C7_amended.1 sampleProc sampleProc ⟨false, []⟩
      (fun _ g hg => absurd hg (List.not_mem_nil g)) rfl
  · exact (goroutinesInfo_no_dead_C7_amended.2 sampleProcC7 1000 2000
      [0, 0, 0, 0, 0, 0, 0, 0] 0 rfl rfl rfl rfl rfl rfl).1

/-- Claim C9: in GoroutinesInfo the error of the `runtime.allgs` pointer read
is discarded and the bytes are decoded unchecked, so whenever that read yields
fewer than 8 bytes (a failed read yields an empty slice) the function panics
instead of returning an error — no constraint on the read's error component
appears below, which is exactly the ignored error. -/
theorem goroutinesInfo_unchecked_read_panics_C9 :
    ∀ (dbp : Process) (a1 a2 : Nat) (b1 : List Nat) (n : Nat),
      dbp.allGCache.isNil = true →
      dbp.addrFor "runtime.allglen" = Except.ok a1 →
      dbp.readMemory a1 8 = (b1, none) →
      leUint64 b1 = some n →
      dbp.addrFor "runtime.allgs" = Except.ok a2 →
      (dbp.readMemory a2 dbp.arch.ptrSize).1.length < 8 →
      dbp.GoroutinesInfo.2 = GoRes.panicked := by
  intro dbp a1 a2 b1 n h1 h2 h3 h4 h5 h6
  have hshort : leUint64 (dbp.readMemory a2 dbp.arch.ptrSize).1 = none := by
    unfold leUint64
    rw [if_pos h6]
  unfold Process.GoroutinesInfo
  rw [h1]
  simp only [Bool.true_eq_false, if_false, h2, h3, h4, h5, hshort]

/-- A process whose `runtime.allgs` pointer read fails at the ptrace layer. -/
def sampleProcC9 : Process :=
  { sampleProcC7 with
    readFail := fun a _ =>
      if a = 2000 then some (GoErr.otherErr "input output error") else none }

/-- Claim C9, witness: the failing read at the concrete fixture makes
GoroutinesInfo panic. -/
theorem goroutinesInfo_unchecked_read_panics_C9_witness :
    sampleProcC9.GoroutinesInfo.2 = GoRes.panicked :=
  goroutinesInfo_unchecked_read_panics_C9 sampleProcC9 1000 2000
    [0, 0, 0, 0, 0, 0, 0, 0] 0 rfl rfl rfl rfl rfl (by decide)

/-- The firstLine scan: if the first `j` lines after the entry line are
skipped (no function, or a name merely containing funcName) and line `j+1`
resolves to a decisive function `f` (either the exact name, or a different
name not containing funcName), the loop returns that line's pc when the name
matches exactly, and signals the break (entry fallback) otherwise. -/
lemma firstLineLoop_finds (st : SymTable) (funcName filename : String) :
    ∀ (j fuel : Nat) (lineno : Int) (f : GoFunc),
      (∀ i : Nat, i < j → skipLine st funcName filename (lineno + 1 + (i : Int)) = true) →
      (st.lineToPC filename (lineno + 1 + (j : Int))).fn = some f →
      (f.name ≠ funcName → strContains f.name funcName = false) →
      j < fuel →
      firstLineLoop st funcName filename fuel lineno =
        (if f.name = funcName
         then some (some (st.lineToPC filename (lineno + 1 + (j : Int))).pc)
         else some none) := by
  intro j
  induction j with
  | zero =>
    intro fuel lineno f hskip hf hnc hlt
    obtain ⟨m, rfl⟩ : ∃ m, fuel = m + 1 := ⟨fuel - 1, by omega⟩
    simp only [Nat.cast_zero, add_zero] at hf ⊢
    unfold firstLineLoop
    rw [hf]
    by_cases hname : f.name = funcName
    · simp [hname]
    · simp [hname, hnc hname]
  | succ k ih =>
    intro fuel lineno f hskip hf hnc hlt
    obtain ⟨m, rfl⟩ : ∃ m, fuel = m + 1 := ⟨fuel - 1, by omega⟩
    have hshift : lineno + 1 + ((k + 1 : Nat) : Int) = (lineno + 1) + 1 + (k : Int) := by
      push_cast
      ring
    have hrec :
        firstLineLoop st funcName filename m (lineno + 1) =
          (if f.name = funcName
           then some (some (st.lineToPC filename (lineno + 1 + ((k + 1 : Nat) : Int))).pc)
           else some none) := by
      rw [hshift]
      refine ih m (lineno + 1) f ?_ (by rw [← hshift]; exact hf) hnc (by omega)
      intro i hi
      have hs := hskip (i + 1) (by omega)
      have he : lineno + 1 + ((i + 1 : Nat) : Int) = (lineno + 1) + 1 + (i : Int) := by
        push_cast
        ring
      rw [he] at hs
      exact hs
    have hsk0 := hskip 0 (by omega)
    simp only [Nat.cast_zero, add_zero] at hsk0
    unfold skipLine at hsk0
    unfold firstLineLoop
    cases hfn : (st.lineToPC filename (lineno + 1)).fn with
    | none =>
      dsimp only
      exact hrec
    | some f0 =>
      rw [hfn] at hsk0
      simp only [Option.map_some', Option.getD_some, Bool.and_eq_true,
        decide_eq_true_eq] at hsk0
      dsimp only
      rw [if_pos hsk0.1, if_pos hsk0.2]
      exact hrec

/-- Claim C8: FindFunctionLocation's three modes.  With firstLine = true it
returns the entry PC when the entry's file suffix is not ".go"; otherwise it
scans subsequent lines, skipping lines resolving to no function or to a name
merely containing funcName, returning the pc of the first line whose function
name equals funcName exactly and falling back to the entry PC when a
different function is reached first.  With firstLine = false and
lineOffset > 0 it returns the pc of (entry file, entry line + lineOffset).
With both zero it returns the entry PC. -/
theorem findFunctionLocation_semantics_C8 :
    (∀ (dbp : Process) (fuel : Nat) (funcName : String) (lineOffset : Int) (origfn : GoFunc),
       dbp.goSymTable.lookupFunc funcName = some origfn →
       fileExt (dbp.goSymTable.pcToLine origfn.entry).1 ≠ ".go" →
       dbp.FindFunctionLocation fuel funcName true lineOffset =
         some (GoRes.ok origfn.entry)) ∧
    (∀ (dbp : Process) (fuel : Nat) (funcName : String) (lineOffset : Int)
       (origfn : GoFunc) (j : Nat) (f : GoFunc),
       dbp.goSymTable.lookupFunc funcName = some origfn →
       fileExt (dbp.goSymTable.pcToLine origfn.entry).1 = ".go" →
       (∀ i : Nat, i < j →
          skipLine dbp.goSymTable funcName (dbp.goSymTable.pcToLine origfn.entry).1
            ((dbp.goSymTable.pcToLine origfn.entry).2 + 1 + (i : Int)) = true) →
       (dbp.goSymTable.lineToPC (dbp.goSymTable.pcToLine origfn.entry).1
          ((dbp.goSymTable.pcToLine origfn.entry).2 + 1 + (j : Int))).fn = some f →
       (f.name ≠ funcName → strContains f.name funcName = false) →
       j < fuel →
       dbp.FindFunctionLocation fuel funcName true lineOffset =
         some (GoRes.ok (if f.name = funcName
           then (dbp.goSymTable.lineToPC (dbp.goSymTable.pcToLine origfn.entry).1
                  ((dbp.goSymTable.pcToLine origfn.entry).2 + 1 + (j : Int))).pc
           else origfn.entry))) ∧
    (∀ (dbp : Process) (fuel : Nat) (funcName : String) (lineOffset : Int) (origfn : GoFunc),
       dbp.goSymTable.lookupFunc funcName = some origfn →
       lineOffset > 0 →
       (dbp.goSymTable.lineToPC (dbp.goSymTable.pcToLine origfn.entry).1
          ((dbp.goSymTable.pcToLine origfn.entry).2 + lineOffset)).failed = false →
       dbp.FindFunctionLocation fuel funcName false lineOffset =
         some (GoRes.ok (dbp.goSymTable.lineToPC (dbp.goSymTable.pcToLine origfn.entry).1
           ((dbp.goSymTable.pcToLine origfn.entry).2 + lineOffset)).pc)) ∧
    (∀ (dbp : Process) (fuel : Nat) (funcName : String) (origfn : GoFunc),
       dbp.goSymTable.lookupFunc funcName = some origfn →
       dbp.FindFunctionLocation fuel funcName false 0 = some (GoRes.ok origfn.entry)) := by
  refine ⟨?_, ?_, ?_, ?_⟩
  · intro dbp fuel funcName lineOffset origfn h1 h2
    unfold Process.FindFunctionLocation
    rw [h1]
    simp [h2]
  · intro dbp fuel funcName lineOffset origfn j f h1 h2 hskip hf hnc hlt
    unfold Process.FindFunctionLocation
    rw [h1]
    dsimp only
    rw [if_pos rfl, if_neg (by rw [h2]; intro hx; exact hx rfl),
        firstLineLoop_finds dbp.goSymTable funcName _ j fuel _ f hskip hf hnc hlt]
    by_cases hname : f.name = funcName
    · simp [hname]
    · simp [hname]
  · intro dbp fuel funcName lineOffset origfn h1 h2 h3
    unfold Process.FindFunctionLocation
    rw [h1]
    simp [h2, h3]
  · intro dbp fuel funcName origfn h1
    unfold Process.FindFunctionLocation
    rw [h1]
    simp

/-- A small symbol table: `main.main` enters at 4096 = ("main.go", 10), line
11 resolves to nothing, line 12 resolves back into `main.main` at 4100, line
15 at 4200; `sys.asm` enters at 8192 in the non-Go file "boot.s". -/
def sampleSymC8 : SymTable :=
  ⟨fun n =>
     if n = "main.main" then some ⟨"main.main", 4096⟩
     else if n = "sys.asm" then some ⟨"sys.asm", 8192⟩
     else none,
   fun pc =>
     if pc = 4096 then ("main.go", 10)
     else if pc = 8192 then ("boot.s", 3)
     else ("", 0),
   fun fl ln =>
     if fl = "main.go" then
       if ln = 12 then ⟨4100, some ⟨"main.main", 4096⟩, false⟩
       else if ln = 15 then ⟨4200, some ⟨"main.main", 4096⟩, false⟩
       else ⟨0, none, true⟩
     else ⟨0, none, true⟩⟩

/-- The fixture process equipped with the C8 symbol table. -/
def sampleProcC8 : Process := { sampleProc with goSymTable := sampleSymC8 }

/-- Claim C8, witness: the four modes at the concrete symbol table — non-Go
entry file returns the entry, the scan finds line 12's pc, lineOffset 5
returns line 15's pc, and the both-zero mode returns the entry. -/
theorem findFunctionLocation_semantics_C8_witness :
    sampleProcC8.FindFunctionLocation 3 "sys.asm" true 0 = some (GoRes.ok 8192) ∧
    sampleProcC8.FindFunctionLocation 3 "main.main" true 0 = some (GoRes.ok 4100) ∧
    sampleProcC8.FindFunctionLocation 3 "main.main" false 5 = some (GoRes.ok 4200) ∧
    sampleProcC8.FindFunctionLocation 3 "main.main" false 0 = some (GoRes.ok 4096) := by
  refine ⟨?_, ?_, ?_, ?_⟩
  · exact findFunctionLocation_semantics_C8.1 sampleProcC8 3 "sys.asm" 0
      ⟨"sys.asm", 8192⟩ rfl (by decide)
  · exact findFunctionLocation_semantics_C8.2.1 sampleProcC8 3 "main.main" 0
      ⟨"main.main", 4096⟩ 1 ⟨"main.main", 4096⟩ rfl (by decide)
      (by intro i hi
          have h0 : i = 0 := by omega
          subst h0
          decide)
      (by decide) (fun h => absurd rfl h) (by decide)
  · exact findFunctionLocation_semantics_C8.2.2.1 sampleProcC8 3 "main.main" 5
      ⟨"main.main", 4096⟩ rfl (by decide) (by decide)
  · exact findFunctionLocation_semantics_C8.2.2.2 sampleProcC8 3 "main.main"
      ⟨"main.main", 4096⟩ rfl

/-- Lookup through a value-only map. -/
lemma lookupA_map_values {κ α : Type} [DecidableEq κ] (f : α → α) (l : List (κ × α)) (k : κ) :
    lookupA (l.map fun p => (p.1, f p.2)) k = (lookupA l k).map f := by
  induction l with
  | nil => rfl
  | cons p rest ih =>
    by_cases h : p.1 = k <;> simp [lookupA, h, ih]

/-- A successful lookup is a member. -/
lemma lookupA_mem {κ α : Type} [DecidableEq κ] {l : List (κ × α)} {k : κ} {v : α}
    (h : lookupA l k = some v) : (k, v) ∈ l := by
  induction l with
  | nil => cases h
  | cons p rest ih =>
    by_cases hk : p.1 = k
    · rw [lookupA, if_pos hk] at h
      cases h
      rw [← hk]
      exact List.mem_cons_self _ _
    · rw [lookupA, if_neg hk] at h
      exact List.mem_cons_of_mem p (ih h)

/-- With distinct keys a member is found by lookup. -/
lemma lookupA_of_mem_nodup {κ α : Type} [DecidableEq κ] {l : List (κ × α)}
    (hnd : (l.map Prod.fst).Nodup) {k : κ} {v : α} (hm : (k, v) ∈ l) :
    lookupA l k = some v := by
  induction l with
  | nil => cases hm
  | cons p rest ih =>
    rcases List.mem_cons.mp hm with heq | hmem
    · cases heq
      rw [lookupA, if_pos rfl]
    · have hk : p.1 ≠ k := by
        intro hk
        have : k ∈ rest.map Prod.fst := List.mem_map.mpr ⟨(k, v), hmem, rfl⟩
        rw [List.map_cons, List.nodup_cons] at hnd
        exact hnd.1 (hk ▸ this)
      rw [lookupA, if_neg hk]
      exact ih (List.nodup_cons.mp (by rwa [List.map_cons] at hnd)).2 hmem

/-- Mapping values keeps the key list. -/
lemma keys_map_values {κ α : Type} (f : α → α) (l : List (κ × α)) :
    ((l.map fun p => (p.1, f p.2)).map Prod.fst) = l.map Prod.fst := by
  simp [List.map_map]

/-- Membership in the erased list. -/
lemma mem_eraseA {κ α : Type} [DecidableEq κ] {l : List (κ × α)} {k : κ} {e : κ × α} :
    e ∈ eraseA l k ↔ e ∈ l ∧ e.1 ≠ k := by
  induction l with
  | nil => simp [eraseA]
  | cons p rest ih =>
    by_cases h : p.1 = k
    · rw [eraseA, if_pos h, ih]
      constructor
      · rintro ⟨h1, h2⟩
        exact ⟨List.mem_cons_of_mem p h1, h2⟩
      · rintro ⟨h1, h2⟩
        rcases List.mem_cons.mp h1 with rfl | hm
        · exact absurd h h2
        · exact ⟨hm, h2⟩
    · rw [eraseA, if_neg h]
      constructor
      · intro hm
        rcases List.mem_cons.mp hm with rfl | hm2
        · exact ⟨List.mem_cons_self _ _, h⟩
        · exact ⟨List.mem_cons_of_mem p (ih.mp hm2).1, (ih.mp hm2).2⟩
      · rintro ⟨h1, h2⟩
        rcases List.mem_cons.mp h1 with rfl | hm2
        · exact List.mem_cons_self _ _
        · exact List.mem_cons_of_mem p (ih.mpr ⟨hm2, h2⟩)

/-- condUpdate does not change the thread id. -/
lemma condUpdate_id (th : Thread) : (condUpdate th).id = th.id := rfl

/-- condUpdate does not change the latched breakpoint. -/
lemma condUpdate_cb (th : Thread) :
    (condUpdate th).currentBreakpoint = th.currentBreakpoint := rfl

/-- clearTempLatch does not change the thread id. -/
lemma clearTempLatch_id (th : Thread) : (clearTempLatch th).id = th.id := by
  unfold clearTempLatch
  split <;> rfl

/-- A triggered-temp thread is triggered. -/
lemma temp_trig_imp {th : Thread} (h : th.onTriggeredTempBreakpoint = true) :
    th.onTriggeredBreakpoint = true := by
  unfold Thread.onTriggeredTempBreakpoint at h
  simp only [Bool.and_eq_true] at h
  exact h.1

/-- A triggered-temp thread latches a breakpoint with the temp flag set. -/
lemma temp_trig_latch {th : Thread} (h : th.onTriggeredTempBreakpoint = true) :
    ∃ bp, th.currentBreakpoint = some bp ∧ bp.temp = true := by
  unfold Thread.onTriggeredTempBreakpoint at h
  simp only [Bool.and_eq_true] at h
  obtain ⟨-, h2⟩ := h
  cases hcb : th.currentBreakpoint with
  | none =>
    rw [hcb] at h2
    cases h2
  | some bp =>
    rw [hcb] at h2
    simp only [Option.map_some', Option.getD_some] at h2
    exact ⟨bp, rfl, h2⟩

/-- The default thread is not triggered. -/
lemma defaultThread_not_trig : defaultThread.onTriggeredBreakpoint = false := rfl

/-- A triggered current thread is an actual member of the thread table. -/
lemma currentThread_triggered_mem {s : Process}
    (h : s.currentThread.onTriggeredBreakpoint = true) :
    lookupA s.threads s.currentThreadId = some s.currentThread := by
  unfold Process.currentThread at h ⊢
  cases hl : lookupA s.threads s.currentThreadId with
  | none =>
    rw [hl] at h
    cases h
  | some th => rfl

/-- The updated-thread list of the condition pass. -/
lemma rbcPass_fst (l : List (Int × Thread)) :
    (rbcPass l).1 = l.map fun p => (p.1, condUpdate p.2) := by
  induction l with
  | nil => rfl
  | cons p rest ih =>
    cases p with
    | mk k th =>
      rw [rbcPass]
      split
      · split
        · simpa using ih
        · simpa using ih
      · simpa using ih

/-- The selected temp thread comes from the updated list and is
temp-triggered. -/
lemma rbcPass_tempth (l : List (Int × Thread)) {t : Thread}
    (h : (rbcPass l).2.1 = some t) :
    (∃ k, (k, t) ∈ (rbcPass l).1) ∧ t.onTriggeredTempBreakpoint = true := by
  induction l with
  | nil => cases h
  | cons p rest ih =>
    cases p with
    | mk k th =>
      rw [rbcPass] at h ⊢
      split at h
      · next htrig =>
        split at h
        · next htemp =>
          cases h
          refine ⟨⟨k, ?_⟩, htemp⟩
          rw [if_pos htrig, if_pos htemp]
          exact List.mem_cons_self _ _
        · next htemp =>
          obtain ⟨⟨k2, hm⟩, ht⟩ := ih h
          refine ⟨⟨k2, ?_⟩, ht⟩
          rw [if_pos htrig, if_neg htemp]
          exact List.mem_cons_of_mem _ hm
      · next htrig =>
        obtain ⟨⟨k2, hm⟩, ht⟩ := ih h
        refine ⟨⟨k2, ?_⟩, ht⟩
        rw [if_neg htrig]
        exact List.mem_cons_of_mem _ hm

/-- The selected user-breakpoint thread comes from the updated list and is
triggered. -/
lemma rbcPass_trigth (l : List (Int × Thread)) {t : Thread}
    (h : (rbcPass l).2.2 = some t) :
    (∃ k, (k, t) ∈ (rbcPass l).1) ∧ t.onTriggeredBreakpoint = true := by
  induction l with
  | nil => cases h
  | cons p rest ih =>
    cases p with
    | mk k th =>
      rw [rbcPass] at h ⊢
      split at h
      · next htrig =>
        split at h
        · next htemp =>
          obtain ⟨⟨k2, hm⟩, ht⟩ := ih h
          refine ⟨⟨k2, ?_⟩, ht⟩
          rw [if_pos htrig, if_pos htemp]
          exact List.mem_cons_of_mem _ hm
        · next htemp =>
          cases h
          refine ⟨⟨k, ?_⟩, htrig⟩
          rw [if_pos htrig, if_neg htemp]
          exact List.mem_cons_self _ _
      · next htrig =>
        obtain ⟨⟨k2, hm⟩, ht⟩ := ih h
        refine ⟨⟨k2, ?_⟩, ht⟩
        rw [if_neg htrig]
        exact List.mem_cons_of_mem _ hm

/-- When no thread was selected, no thread of the updated list is triggered. -/
lemma rbcPass_none_trig (l : List (Int × Thread))
    (h1 : (rbcPass l).2.1 = none) (h2 : (rbcPass l).2.2 = none) :
    ∀ e ∈ (rbcPass l).1, e.2.onTriggeredBreakpoint = false := by
  induction l with
  | nil =>
    intro e he
    cases he
  | cons p rest ih =>
    cases p with
    | mk k th =>
      rw [rbcPass] at h1 h2 ⊢
      split at h1
      · next htrig =>
        split at h1
        · cases h1
        · next htemp =>
          rw [if_pos htrig, if_neg htemp] at h2
          cases h2
      · next htrig =>
        rw [if_neg htrig] at h2 ⊢
        intro e he
        rcases List.mem_cons.mp he with rfl | hm
        · simpa using htrig
        · exact ih h1 h2 e hm

/-- Value-only updates preserve thread-table well-formedness. -/
lemma wfTList_map {f : Thread → Thread} (hf : ∀ th, (f th).id = th.id)
    {l : List (Int × Thread)} (h : wfTList l) :
    wfTList (l.map fun p => (p.1, f p.2)) := by
  constructor
  · rw [keys_map_values]
    exact h.1
  · intro e he
    obtain ⟨p, hp, rfl⟩ := List.mem_map.mp he
    exact (hf p.2).trans (h.2 p hp)

/-- The successful outcome of SwitchThread. -/
lemma switchThread_ok {dbp s2 : Process} {tid : Int}
    (h : dbp.SwitchThread tid = (s2, GoRes.ok ())) :
    ∃ th, lookupA dbp.threads tid = some th ∧
      s2 = { dbp with currentThreadId := tid,
                      selectedGoroutine := th.getgResult.toOption } := by
  unfold Process.SwitchThread at h
  split at h
  · next th hl =>
    cases h
    exact ⟨th, hl, rfl⟩
  · cases h

/-- Dispatch of a successful runBreakpointConditions: the thread list is the
condition-updated one, bookkeeping fields are unchanged, well-formedness is
preserved, and either the (possibly switched) current thread is triggered or
no thread at all is triggered and the current thread selection is untouched. -/
lemma runBC_ok {s1 s2 : Process} (hwf : wfTList s1.threads)
    (h : s1.runBreakpointConditions = (s2, GoRes.ok ())) :
    s2.threads = (s1.threads.map fun p => (p.1, condUpdate p.2)) ∧
    s2.breakpoints = s1.breakpoints ∧
    s2.halt = s1.halt ∧
    s2.mem = s1.mem ∧
    wfTList s2.threads ∧
    (s2.currentThread.onTriggeredBreakpoint = true ∨
     ((∀ e ∈ s2.threads, e.2.onTriggeredBreakpoint = false) ∧
      s2.currentThreadId = s1.currentThreadId)) := by
  have hwf2 : wfTList (rbcPass s1.threads).1 := by
    rw [rbcPass_fst]
    exact wfTList_map condUpdate_id hwf
  unfold Process.runBreakpointConditions at h
  split at h
  · next t h21 =>
    split at h
    · cases h
      refine ⟨rbcPass_fst _, rfl, rfl, rfl, hwf2, Or.inl ?_⟩
      next htemp => exact temp_trig_imp htemp
    · next htemp =>
      obtain ⟨th, hl, rfl⟩ := switchThread_ok h
      refine ⟨rbcPass_fst _, rfl, rfl, rfl, hwf2, Or.inl ?_⟩
      obtain ⟨⟨k, hm⟩, ht⟩ := rbcPass_tempth s1.threads h21
      have hid : t.id = k := hwf2.2 (k, t) hm
      have hlu : lookupA (rbcPass s1.threads).1 t.id = some t := by
        rw [hid]
        exact lookupA_of_mem_nodup hwf2.1 hm
      show ((lookupA (rbcPass s1.threads).1 t.id).getD defaultThread).onTriggeredBreakpoint = true
      rw [hlu]
      exact temp_trig_imp ht
  · next h21 =>
    split at h
    · next t h22 =>
      split at h
      · next htrig =>
        cases h
        exact ⟨rbcPass_fst _, rfl, rfl, rfl, hwf2, Or.inl htrig⟩
      · obtain ⟨th, hl, rfl⟩ := switchThread_ok h
        refine ⟨rbcPass_fst _, rfl, rfl, rfl, hwf2, Or.inl ?_⟩
        obtain ⟨⟨k, hm⟩, ht⟩ := rbcPass_trigth s1.threads h22
        have hid : t.id = k := hwf2.2 (k, t) hm
        have hlu : lookupA (rbcPass s1.threads).1 t.id = some t := by
          rw [hid]
          exact lookupA_of_mem_nodup hwf2.1 hm
        show ((lookupA (rbcPass s1.threads).1 t.id).getD defaultThread).onTriggeredBreakpoint = true
        rw [hlu]
        exact ht
    · next h22 =>
      cases h
      exact ⟨rbcPass_fst _, rfl, rfl, rfl, hwf2,
        Or.inr ⟨fun e he => rbcPass_none_trig s1.threads h21 h22 e he, rfl⟩⟩

/-- ClearBreakpoint returns the state unchanged or with only memory and the
erased table rewritten. -/
lemma clearBreakpoint_shape (dbp : Process) (addr : Nat) :
    (dbp.ClearBreakpoint addr).1 = dbp ∨
    ∃ m, (dbp.ClearBreakpoint addr).1 =
      { dbp with mem := m, breakpoints := eraseA dbp.breakpoints addr } := by
  unfold Process.ClearBreakpoint
  repeat' split
  all_goals first
    | exact Or.inl rfl
    | exact Or.inr ⟨_, rfl⟩

/-- The breakpoint-clearing loop leaves threads, the selection and the flags
alone. -/
lemma ctbLoop_fields :
    ∀ (l : List (Nat × Breakpoint)) (dbp : Process),
      (ctbLoop dbp l).1.threads = dbp.threads ∧
      (ctbLoop dbp l).1.currentThreadId = dbp.currentThreadId ∧
      (ctbLoop dbp l).1.halt = dbp.halt := by
  intro l
  induction l with
  | nil => exact fun dbp => ⟨rfl, rfl, rfl⟩
  | cons p rest ih =>
    intro dbp
    rw [ctbLoop]
    split
    · cases hcb : dbp.ClearBreakpoint p.2.addr with
      | mk dbp2 r =>
        have hfields : dbp2.threads = dbp.threads ∧ dbp2.currentThreadId = dbp.currentThreadId ∧
            dbp2.halt = dbp.halt := by
          have hd : dbp2 = (dbp.ClearBreakpoint p.2.addr).1 := by rw [hcb]
          rcases clearBreakpoint_shape dbp p.2.addr with hs | ⟨m, hs⟩ <;>
            rw [hd, hs] <;> exact ⟨rfl, rfl, rfl⟩
        cases r with
        | ok bp2 =>
          dsimp only
          obtain ⟨h1, h2, h3⟩ := ih dbp2
          exact ⟨h1.trans hfields.1, h2.trans hfields.2.1, h3.trans hfields.2.2⟩
        | err e =>
          dsimp only
          exact hfields
        | panicked =>
          dsimp only
          exact hfields
    · exact ih dbp

/-- Erasure preserves the key-address invariant of the breakpoint table. -/
lemma wfBList_eraseA {l : List (Nat × Breakpoint)} (h : wfBList l) (k : Nat) :
    wfBList (eraseA l k) :=
  fun e he => h e (mem_eraseA.mp he).1

/-- A successful run of the clearing loop leaves no temp breakpoint in the
table, provided the table is keyed by addresses and every temp entry is still
scheduled for visiting. -/
lemma ctbLoop_clears :
    ∀ (l : List (Nat × Breakpoint)) (dbp dbp2 : Process),
      wfBList dbp.breakpoints →
      (∀ e ∈ dbp.breakpoints, e.2.temp = true → e ∈ l) →
      ctbLoop dbp l = (dbp2, GoRes.ok ()) →
      ∀ e ∈ dbp2.breakpoints, e.2.temp = false := by
  intro l
  induction l with
  | nil =>
    intro dbp dbp2 hwf hinv h e he
    rw [ctbLoop] at h
    cases h
    cases hb : e.2.temp
    · rfl
    · exact absurd (hinv e he hb) (List.not_mem_nil e)
  | cons p rest ih =>
    intro dbp dbp2 hwf hinv h e he
    rw [ctbLoop] at h
    split at h
    · next htemp =>
      cases hcb : dbp.ClearBreakpoint p.2.addr with
      | mk dbpn r =>
        rw [hcb] at h
        cases r with
        | ok bp2 =>
          have hd : dbpn = (dbp.ClearBreakpoint p.2.addr).1 := by rw [hcb]
          have hbps : dbpn.breakpoints = dbp.breakpoints ∨
              dbpn.breakpoints = eraseA dbp.breakpoints p.2.addr := by
            rcases clearBreakpoint_shape dbp p.2.addr with hs | ⟨m, hs⟩
            · left
              rw [hd, hs]
            · right
              rw [hd, hs]
          -- ClearBreakpoint succeeded, so FindBreakpoint found something; the
          -- entry at key p.2.addr = p.1 is erased in the success branch.
          have herase : dbpn.breakpoints = eraseA dbp.breakpoints p.2.addr := by
            rcases hbps with hb | hb
            · -- success always erases: derive it from the definition instead
              unfold Process.ClearBreakpoint at hcb
              split at hcb
              · cases hcb
              · split at hcb
                · cases hcb
                · cases hcb
                · cases hcb
                  rfl
            · exact hb
          refine ih dbpn dbp2 ?_ ?_ h e he
          · rw [herase]
            exact wfBList_eraseA hwf _
          · intro e2 he2 ht2
            rw [herase] at he2
            obtain ⟨hmem, hne⟩ := mem_eraseA.mp he2
            rcases List.mem_cons.mp (hinv e2 hmem ht2) with rfl | hr
            · exact absurd (hwf _ hmem).symm hne
            · exact hr
        | err e2 => cases h
        | panicked => cases h
    · next htemp =>
      refine ih dbp dbp2 hwf ?_ h e he
      intro e2 he2 ht2
      rcases List.mem_cons.mp (hinv e2 he2 ht2) with rfl | hr
      · exact absurd ht2 htemp
      · exact hr

/-- The successful outcome of clearTempBreakpoints: no temp entries remain
(under address keying) and the threads are the latch-cleared originals. -/
lemma clearTempBreakpoints_ok {dbp dbp3 : Process}
    (h : dbp.clearTempBreakpoints = (dbp3, GoRes.ok ())) :
    dbp3.threads = (ctbLoop dbp dbp.breakpoints).1.threads.map
      (fun p => (p.1, clearTempLatch p.2)) ∧
    dbp3.currentThreadId = dbp.currentThreadId ∧
    (wfBList dbp.breakpoints → ∀ e ∈ dbp3.breakpoints, e.2.temp = false) := by
  unfold Process.clearTempBreakpoints at h
  split at h
  · next dbp2 u hloop =>
    cases h
    refine ⟨by rw [hloop], ?_, ?_⟩
    · show dbp2.currentThreadId = dbp.currentThreadId
      have := (ctbLoop_fields dbp.breakpoints dbp).2.1
      rw [hloop] at this
      exact this
    · intro hwf e he
      exact ctbLoop_clears dbp.breakpoints dbp dbp2 hwf (fun e2 he2 _ => he2) hloop e he
  · next r hnever =>
    exact (hnever dbp3 () h).elim

/-- Claim C2: whenever Continue returns nil, the current thread is latched on
a breakpoint whose condition evaluated true — with all temp breakpoints
cleared from the table if that breakpoint is temporary — or the stop carried
no breakpoint (manual stop); and on a stop where a breakpoint was hit but no
thread's condition evaluated true, Continue loops and resumes again instead of
returning.  `step` stands for continueOnce, an arbitrary state transformer
that preserves thread-table well-formedness. -/
theorem continue_return_invariant_C2 (step : Process → Process × GoRes Unit)
    (hstep : ∀ s, wfTList s.threads → wfTList ((step s).1).threads) :
    (∀ (fuel : Nat) (s s2 : Process), wfTList s.threads →
       Process.Continue step fuel s = (s2, some (GoRes.ok ())) → contPost s2) ∧
    (∀ (fuel : Nat) (s sA sB : Process),
       step s = (sA, GoRes.ok ()) →
       sA.runBreakpointConditions = (sB, GoRes.ok ()) →
       (∀ e ∈ sB.threads, e.2.onTriggeredBreakpoint = false) →
       sA.currentThread.currentBreakpoint.isNone = false →
       Process.Continue step (fuel + 1) s = Process.Continue step fuel sB) := by
  constructor
  · intro fuel
    induction fuel with
    | zero =>
      intro s s2 hwf h
      rw [Process.Continue] at h
      cases h
    | succ n ih =>
      intro s s2 hwf h
      unfold Process.Continue at h
      cases hstep1 : step s with
      | mk s1 r1 =>
        rw [hstep1] at h
        have hwf1 : wfTList s1.threads := by
          have hh := hstep s hwf
          rw [hstep1] at hh
          exact hh
        cases r1 with
        | err e => cases h
        | panicked => cases h
        | ok u =>
          dsimp only at h
          cases hrbc : s1.runBreakpointConditions with
          | mk sB r2 =>
            rw [hrbc] at h
            cases r2 with
            | err e => cases h
            | panicked => cases h
            | ok u2 =>
              dsimp only at h
              obtain ⟨hth, hbps, hhalt, hmem2, hwfB, hdisp⟩ := runBC_ok hwf1 hrbc
              by_cases htrig : sB.currentThread.onTriggeredBreakpoint = true
              · rw [if_pos htrig] at h
                by_cases htemp : sB.currentThread.onTriggeredTempBreakpoint = true
                · rw [if_pos htemp] at h
                  cases hctb : sB.clearTempBreakpoints with
                  | mk s3 r3 =>
                    rw [hctb] at h
                    cases r3 with
                    | err e3 => cases h
                    | panicked => cases h
                    | ok u3 =>
                      dsimp only at h
                      have hs : s3 = s2 := congrArg Prod.fst h
                      subst hs
                      right
                      obtain ⟨hthr3, hcid3, -⟩ := clearTempBreakpoints_ok hctb
                      have hlu : lookupA sB.threads sB.currentThreadId = some sB.currentThread :=
                        currentThread_triggered_mem htrig
                      have hloopth : (ctbLoop sB sB.breakpoints).1.threads = sB.threads :=
                        (ctbLoop_fields _ _).1
                      unfold Process.currentThread
                      rw [hcid3, hthr3, hloopth, lookupA_map_values, hlu]
                      obtain ⟨bp, hcb, hbt⟩ := temp_trig_latch htemp
                      simp [clearTempLatch, hcb, hbt]
                · rw [if_neg htemp] at h
                  have hs : sB = s2 := congrArg Prod.fst h
                  subst hs
                  left
                  have htrig2 := htrig
                  unfold Thread.onTriggeredBreakpoint at htrig2
                  simp only [Bool.and_eq_true] at htrig2
                  obtain ⟨hsome, hcm⟩ := htrig2
                  obtain ⟨bp, hcb⟩ := Option.isSome_iff_exists.mp hsome
                  refine ⟨bp, hcb, hcm, fun hbt => absurd ?_ htemp⟩
                  unfold Thread.onTriggeredTempBreakpoint
                  rw [htrig, hcb]
                  simp [hbt]
              · rw [if_neg htrig] at h
                rcases hdisp with hl | ⟨hnone, hcid⟩
                · exact absurd hl htrig
                · by_cases hexit : s1.currentThread.currentBreakpoint.isNone = true
                  · rw [if_pos hexit] at h
                    have hs : sB = s2 := congrArg Prod.fst h
                    subst hs
                    right
                    unfold Process.currentThread
                    rw [hcid, hth, lookupA_map_values]
                    cases hl1 : lookupA s1.threads s1.currentThreadId with
                    | none => rfl
                    | some th =>
                      have hn : th.currentBreakpoint = none := by
                        have hh := hexit
                        unfold Process.currentThread at hh
                        rw [hl1] at hh
                        simp only [Option.getD_some] at hh
                        exact Option.isNone_iff_eq_none.mp hh
                      simp [condUpdate_cb, hn]
                  · rw [if_neg hexit] at h
                    exact ih sB s2 hwfB h
  · intro fuel s sA sB h1 h2 h3 h4
    have htrig : sB.currentThread.onTriggeredBreakpoint = false := by
      unfold Process.currentThread
      cases hl : lookupA sB.threads sB.currentThreadId with
      | none => rfl
      | some th => exact h3 (sB.currentThreadId, th) (lookupA_mem hl)
    conv_lhs => rw [Process.Continue]
    rw [h1]
    dsimp only
    rw [h2]
    dsimp only
    rw [if_neg (by simp [htrig]), if_neg (by simp [h4])]

/-- A process with a thread latched on a breakpoint whose tasklet-id
condition (5) does not match the running tasklet (id 7). -/
def sampleProcC2B : Process :=
  { sampleProc with
    threads := [(1, { sampleT1 with currentBreakpoint := some ⟨100, [144], 1, false, some 5⟩ })] }

/-- Claim C2, witness: a manual-style stop satisfies the return invariant, and
a stop whose only hit breakpoint has a false condition makes Continue loop. -/
theorem continue_return_invariant_C2_witness :
    contPost (Process.Continue (fun s => (s, GoRes.ok ())) 1 sampleProc).1 ∧
    Process.Continue (fun s => (s, GoRes.ok ())) 1 sampleProcC2B =
      Process.Continue (fun s => (s, GoRes.ok ())) 0
        sampleProcC2B.runBreakpointConditions.1 := by
  constructor
  · exact (continue_return_invariant_C2 (fun s => (s, GoRes.ok ())) (fun s h => h)).1
      1 sampleProc _ (by decide) rfl
  · exact (continue_return_invariant_C2 (fun s => (s, GoRes.ok ())) (fun s h => h)).2
      0 sampleProcC2B sampleProcC2B _ rfl rfl (by decide) rfl

/-- A setNextBreakpoints collaborator that installs one temp breakpoint at
address 200 and succeeds. -/
def snbC1 (s : Process) : Process × GoRes Unit :=
  ((s.SetTempBreakpoint 200).1, GoRes.ok ())

/-- A continueOnce outcome that stops thread 1 on the user breakpoint at 100
(condition unset, so it will evaluate true). -/
def stepC1 (s : Process) : Process × GoRes Unit :=
  ({ s with threads := s.threads.map (fun p =>
      if p.1 = 1 then (p.1, { p.2 with currentBreakpoint := some sampleUserBp }) else p) },
   GoRes.ok ())

/-- Claim C1, counterexample: an execution of Next that returns without error
while a temporary breakpoint remains in the table — the Continue at the end of
Next stops on the triggered non-temp user breakpoint at 100, which returns nil
without clearing the temp breakpoint Next installed at 200. -/
theorem next_leaves_temp_bps_C1 :
    (Process.Next snbC1 stepC1 1 sampleProc).2 = some (GoRes.ok ()) ∧
    anyTempBp (Process.Next snbC1 stepC1 1 sampleProc).1.breakpoints = true := by
  refine ⟨rfl, rfl⟩

/-- Claim C1, amended: when the Continue at the end of Next stops on a
triggered temporary breakpoint (and the table is keyed by addresses and the
clearing succeeds), Continue returns with no temporary breakpoint left in the
table; when it stops on a triggered non-temp user breakpoint or a manual
stop, temporary breakpoints may remain (see the counterexample), guarded by
the next-while-nexting check of the following Next. -/
theorem continue_temp_stop_clears_C1_amended
    (step : Process → Process × GoRes Unit) (fuel : Nat) (s sA sB s3 : Process)
    (h1 : step s = (sA, GoRes.ok ()))
    (h2 : sA.runBreakpointConditions = (sB, GoRes.ok ()))
    (h3 : sB.currentThread.onTriggeredTempBreakpoint = true)
    (hwfb : wfBList sB.breakpoints)
    (h4 : sB.clearTempBreakpoints = (s3, GoRes.ok ())) :
    Process.Continue step (fuel + 1) s = (s3, some (GoRes.ok ())) ∧
    ∀ e ∈ s3.breakpoints, e.2.temp = false := by
  constructor
  · conv_lhs => rw [Process.Continue]
    rw [h1]
    dsimp only
    rw [h2]
    dsimp only
    rw [if_pos (temp_trig_imp h3), if_pos h3, h4]
  · exact (clearTempBreakpoints_ok h4).2.2 hwfb

/-- A temp breakpoint installed at 200 (id 1, condition unset). -/
def sampleTempBp : Breakpoint := ⟨200, [144], 1, true, none⟩

/-- A process whose thread 1 is latched on the temp breakpoint at 200, with
that breakpoint installed in the table and its trap byte in memory. -/
def sampleProcC1W : Process :=
  { sampleProc with
    threads := [(1, { sampleT1 with currentBreakpoint := some sampleTempBp })],
    breakpoints := [(200, sampleTempBp)],
    mem := [(100, 204), (200, 204)] }

/-- The fixture after runBreakpointConditions: the latched thread's condition
flag is set. -/
def sampleProcC1W2 : Process :=
  { sampleProcC1W with
    threads := [(1, { sampleT1 with
                      currentBreakpoint := some sampleTempBp,
                      breakpointConditionMet := true })] }

/-- The fixture after clearTempBreakpoints: the table is empty, the original
byte is restored at 200, and the latch is dropped. -/
def sampleProcC1W3 : Process :=
  { sampleProcC1W with
    breakpoints := [],
    mem := [(100, 204), (200, 144)],
    threads := [(1, { sampleT1 with breakpointConditionMet := true })] }

/-- Claim C1, amended witness: a temp-breakpoint stop at the concrete fixture
returns through the clearing path and leaves no temp entry. -/
theorem continue_temp_stop_clears_C1_witness :
    Process.Continue (fun s => (s, GoRes.ok ())) 1 sampleProcC1W =
      (sampleProcC1W3, some (GoRes.ok ())) ∧
    ∀ e ∈ sampleProcC1W3.breakpoints, e.2.temp = false :=
  continue_temp_stop_clears_C1_amended (fun s => (s, GoRes.ok ())) 0 sampleProcC1W
    sampleProcC1W sampleProcC1W2 sampleProcC1W3 rfl (by rfl) (by decide) (by decide) (by rfl)

/-- setBreakpoint leaves the halt flag alone. -/
lemma setBreakpoint_halt (dbp : Process) (a : Nat) (t : Bool) :
    (dbp.setBreakpoint a t).1.halt = dbp.halt := by
  unfold Process.setBreakpoint
  split <;> rfl

/-- SetBreakpoint leaves the halt flag alone. -/
lemma setBreakpointU_halt (dbp : Process) (a : Nat) :
    (dbp.SetBreakpoint a).1.halt = dbp.halt :=
  setBreakpoint_halt dbp a false

/-- SetTempBreakpoint leaves the halt flag alone. -/
lemma setTempBreakpoint_halt (dbp : Process) (a : Nat) :
    (dbp.SetTempBreakpoint a).1.halt = dbp.halt :=
  setBreakpoint_halt dbp a true

/-- ClearBreakpoint leaves the halt flag alone. -/
lemma clearBreakpoint_halt (dbp : Process) (a : Nat) :
    (dbp.ClearBreakpoint a).1.halt = dbp.halt := by
  rcases clearBreakpoint_shape dbp a with h | ⟨m, h⟩ <;> rw [h]

/-- clearTempBreakpoints leaves the halt flag alone. -/
lemma clearTempBreakpoints_halt (dbp : Process) :
    dbp.clearTempBreakpoints.1.halt = dbp.halt := by
  cases hl : ctbLoop dbp dbp.breakpoints with
  | mk dbp2 r =>
    have hh := (ctbLoop_fields dbp.breakpoints dbp).2.2
    rw [hl] at hh
    unfold Process.clearTempBreakpoints
    rw [hl]
    cases r <;> exact hh

/-- SwitchThread leaves the halt flag alone. -/
lemma switchThread_halt (dbp : Process) (tid : Int) :
    (dbp.SwitchThread tid).1.halt = dbp.halt := by
  unfold Process.SwitchThread
  split <;> rfl

/-- runBreakpointConditions leaves the halt flag alone. -/
lemma runBC_halt (dbp : Process) :
    dbp.runBreakpointConditions.1.halt = dbp.halt := by
  unfold Process.runBreakpointConditions
  repeat' split
  all_goals first | rfl | exact switchThread_halt _ _

/-- The Continue loop leaves the halt flag alone when continueOnce does. -/
lemma continue_halt (step : Process → Process × GoRes Unit) (hs : haltPreserving step) :
    ∀ (fuel : Nat) (s : Process), (Process.Continue step fuel s).1.halt = s.halt := by
  intro fuel
  induction fuel with
  | zero => intro s; rfl
  | succ n ih =>
    intro s
    rw [Process.Continue]
    cases h1 : step s with
    | mk s1 r1 =>
      have e1 : s1.halt = s.halt := by
        have hh := hs s
        rw [h1] at hh
        exact hh
      cases r1 with
      | err e => exact e1
      | panicked => exact e1
      | ok u =>
        dsimp only
        cases h2 : s1.runBreakpointConditions with
        | mk s2 r2 =>
          have e2 : s2.halt = s1.halt := by
            have hh := runBC_halt s1
            rw [h2] at hh
            exact hh
          cases r2 with
          | err e => exact e2.trans e1
          | panicked => exact e2.trans e1
          | ok u2 =>
            dsimp only
            by_cases htr : s2.currentThread.onTriggeredBreakpoint = true
            · rw [if_pos htr]
              by_cases htm : s2.currentThread.onTriggeredTempBreakpoint = true
              · rw [if_pos htm]
                cases h3 : s2.clearTempBreakpoints with
                | mk s3 r3 =>
                  have e3 : s3.halt = s2.halt := by
                    have hh := clearTempBreakpoints_halt s2
                    rw [h3] at hh
                    exact hh
                  cases r3 <;> exact e3.trans (e2.trans e1)
              · rw [if_neg htm]
                exact e2.trans e1
            · rw [if_neg htr]
              by_cases hex : s1.currentThread.currentBreakpoint.isNone = true
              · rw [if_pos hex]
                exact e2.trans e1
              · rw [if_neg hex]
                exact (ih s2).trans (e2.trans e1)

/-- GoroutinesInfo leaves the halt flag alone. -/
lemma goroutinesInfo_halt (s : Process) : s.GoroutinesInfo.1.halt = s.halt :=
  (goroutinesInfo_fields s).2.2.1

/-- FindGoroutine leaves the halt flag alone. -/
lemma findGoroutine_halt (s : Process) (gid : Int) :
    (s.FindGoroutine gid).1.halt = s.halt := by
  unfold Process.FindGoroutine
  split
  · rfl
  · split
    · next h =>
      have hh := goroutinesInfo_halt s
      rw [h] at hh
      exact hh
    · next h =>
      have hh := goroutinesInfo_halt s
      rw [h] at hh
      exact hh
    · next dbp1 gs h =>
      have hh := goroutinesInfo_halt s
      rw [h] at hh
      split <;> exact hh

/-- SwitchGoroutine leaves the halt flag alone. -/
lemma switchGoroutine_halt (s : Process) (gid : Int) :
    (s.SwitchGoroutine gid).1.halt = s.halt := by
  unfold Process.SwitchGoroutine
  cases hf : s.FindGoroutine gid with
  | mk s1 r =>
    have e1 : s1.halt = s.halt := by
      have hh := findGoroutine_halt s gid
      rw [hf] at hh
      exact hh
    cases r with
    | err e => exact e1
    | panicked => exact e1
    | ok og =>
      cases og with
      | none => exact e1
      | some g =>
        dsimp only
        cases g.thread with
        | some tid => exact (switchThread_halt s1 tid).trans e1
        | none => exact e1

/-- The chan-recv loop leaves the halt flag alone. -/
lemma scrbLoop_halt : ∀ (l : List G) (dbp : Process) (count : Nat),
    (scrbLoop dbp l count).1.halt = dbp.halt := by
  intro l
  induction l with
  | nil => intro dbp count; rfl
  | cons g rest ih =>
    intro dbp count
    rw [scrbLoop]
    by_cases hb : g.chanRecvBlockedFlag = true
    · rw [if_pos hb]
      cases hg : g.chanRecvRet with
      | error e =>
        cases e <;> first | exact ih dbp count | rfl
      | ok ret =>
        dsimp only
        cases hs : dbp.SetTempBreakpoint ret with
        | mk dbp2 r =>
          have e2 : dbp2.halt = dbp.halt := by
            have hh := setTempBreakpoint_halt dbp ret
            rw [hs] at hh
            exact hh
          cases r with
          | err e =>
            cases e <;> first | exact (ih dbp2 count).trans e2 | exact e2
          | panicked => exact e2
          | ok bp => exact (ih dbp2 (count + 1)).trans e2
    · rw [if_neg hb]
      exact ih dbp count

/-- setChanRecvBreakpoints leaves the halt flag alone. -/
lemma setChanRecv_halt (s : Process) : s.setChanRecvBreakpoints.1.halt = s.halt := by
  unfold Process.setChanRecvBreakpoints
  cases hg : s.GoroutinesInfo with
  | mk s1 r =>
    have e1 : s1.halt = s.halt := by
      have hh := goroutinesInfo_halt s
      rw [hg] at hh
      exact hh
    cases r with
    | err e => exact e1
    | panicked => exact e1
    | ok gs => exact (scrbLoop_halt gs.elems s1 0).trans e1

/-- Next leaves the halt flag alone when its collaborators do. -/
lemma next_halt (snb step : Process → Process × GoRes Unit)
    (hsnb : haltPreserving snb) (hstep : haltPreserving step)
    (fuel : Nat) (s : Process) : (Process.Next snb step fuel s).1.halt = s.halt := by
  unfold Process.Next
  by_cases ht : anyTempBp s.breakpoints = true
  · rw [if_pos ht]
  · rw [if_neg ht]
    cases hg : s.currentThread.getgResult with
    | error e => rfl
    | ok g =>
      dsimp only
      cases hc : s.setChanRecvBreakpoints with
      | mk s1 r1 =>
        have e1 : s1.halt = s.halt := by
          have hh := setChanRecv_halt s
          rw [hc] at hh
          exact hh
        cases r1 with
        | err e => exact e1
        | panicked => exact e1
        | ok n =>
          dsimp only
          cases hsn : snb s1 with
          | mk s2 r2 =>
            have e2 : s2.halt = s1.halt := by
              have hh := hsnb s1
              rw [hsn] at hh
              exact hh
            cases r2 with
            | panicked => exact e2.trans e1
            | ok u => exact (continue_halt step hstep fuel _).trans (e2.trans e1)
            | err e =>
              cases e <;>
                first
                  | exact (continue_halt step hstep fuel _).trans (e2.trans e1)
                  | (dsimp only
                     split <;> exact (continue_halt step hstep fuel _).trans (e2.trans e1))
                  | exact (clearTempBreakpoints_halt s2).trans (e2.trans e1)

/-- handleBreakpointOnThread leaves the halt flag alone when the step
collaborator does. -/
lemma handleBp_halt (f : Process → Int → Process × GoRes Unit) (hf : haltPreserving2 f)
    (s : Process) (id : Int) : (s.handleBreakpointOnThread f id).1.halt = s.halt := by
  unfold Process.handleBreakpointOnThread
  cases hl : lookupA s.threads id with
  | none => rfl
  | some thread =>
    dsimp only
    cases hsc : thread.SetCurrentBreakpoint s with
    | mk th2 r =>
      cases r with
      | err e => rfl
      | panicked => rfl
      | ok u =>
        dsimp only
        split
        · rfl
        · cases hpe : th2.pcReadErr with
          | some e => rfl
          | none =>
            dsimp only
            split
            · cases hs1 : f { s with threads := updateA s.threads id th2 } th2.id with
              | mk d2 r2 =>
                have e2 : d2.halt = s.halt := by
                  have hh := hf { s with threads := updateA s.threads id th2 } th2.id
                  rw [hs1] at hh
                  exact hh
                cases r2 with
                | err e => exact e2
                | panicked => exact e2
                | ok u2 =>
                  dsimp only
                  cases hs2 : f d2 th2.id with
                  | mk d3 r3 =>
                    have e3 : d3.halt = d2.halt := by
                      have hh := hf d2 th2.id
                      rw [hs2] at hh
                      exact hh
                    cases r3 <;> exact e3.trans e2
            · rfl

/-- A process with a pending manual-stop request. -/
def sampleProcHalt : Process := { sampleProc with halt := true }

/-- Claim C10: RequestManualStop sets the halt flag; no operation of the core
(with collaborators that do not touch the flag, as the spec describes none
that does) ever resets it; and while the flag is set,
handleBreakpointOnThread classifies a thread stopped without a breakpoint as
a valid (manual) stop instead of failing with NoBreakpoint. -/
theorem halt_flag_latched_C10 :
    (∀ s : Process, s.RequestManualStop.halt = true) ∧
    (∀ (op : CoreOp) (s : Process), op.oracleOK → s.halt = true →
       (applyCoreOp op s).halt = true) ∧
    (∀ (f : Process → Int → Process × GoRes Unit) (s : Process) (id : Int) (th : Thread),
       s.halt = true → lookupA s.threads id = some th → th.pcReadErr = none →
       (s.handleBreakpointOnThread f id).2 = GoRes.ok th.id) := by
  refine ⟨fun s => rfl, ?_, ?_⟩
  · intro op s hok hh
    cases op with
    | requestManualStop => rfl
    | setBreakpointOp a => exact (setBreakpointU_halt s a).trans hh
    | setTempBreakpointOp a => exact (setTempBreakpoint_halt s a).trans hh
    | clearBreakpointOp a => exact (clearBreakpoint_halt s a).trans hh
    | clearTempBreakpointsOp => exact (clearTempBreakpoints_halt s).trans hh
    | switchThreadOp t => exact (switchThread_halt s t).trans hh
    | switchGoroutineOp g => exact (switchGoroutine_halt s g).trans hh
    | goroutinesInfoOp => exact (goroutinesInfo_halt s).trans hh
    | findGoroutineOp g => exact (findGoroutine_halt s g).trans hh
    | setChanRecvOp => exact (setChanRecv_halt s).trans hh
    | runBpCondsOp => exact (runBC_halt s).trans hh
    | handleBpOp f i => exact (handleBp_halt f hok s i).trans hh
    | continueOp f fuel => exact (continue_halt f hok fuel s).trans hh
    | nextOp snb f fuel => exact (next_halt snb f hok.1 hok.2 fuel s).trans hh
  · intro f s id th hhalt hl hpc
    have hsc : ∃ th2, th.SetCurrentBreakpoint s = (th2, GoRes.ok ()) ∧ th2.id = th.id := by
      unfold Thread.SetCurrentBreakpoint
      rw [hpc]
      dsimp only
      cases lookupA s.breakpoints (u64sub th.pc s.arch.breakpointSize) with
      | some bp => exact ⟨_, rfl, rfl⟩
      | none => exact ⟨th, rfl, rfl⟩
    obtain ⟨th2, hsc2, hid⟩ := hsc
    unfold Process.handleBreakpointOnThread
    rw [hl]
    dsimp only
    rw [hsc2]
    dsimp only
    rw [if_pos (by rw [hhalt]; simp), hid]

/-- Claim C10, witness: a halted process stays halted across a concrete core
operation, and its breakpoint-less thread stop is classified as a manual
stop. -/
theorem halt_flag_latched_C10_witness :
    (applyCoreOp (CoreOp.clearBreakpointOp 100) sampleProcHalt).halt = true ∧
    (sampleProcHalt.handleBreakpointOnThread (fun s _ => (s, GoRes.ok ())) 1).2 =
      GoRes.ok 1 := by
  constructor
  · exact halt_flag_latched_C10.2.1 (CoreOp.clearBreakpointOp 100) sampleProcHalt trivial rfl
  · exact halt_flag_latched_C10.2.2 (fun s _ => (s, GoRes.ok ())) sampleProcHalt 1
      sampleT1 rfl rfl rfl

end Delve
